import Mathlib

set_option maxHeartbeats 1000000

/-!
Verification of the flow execution core (`lib/flow_context.py`).

We shallowly embed the data model (protobufs become structures with the
proto2 default values) and the operations of `HuntFlowContext`,
`FlowContext` and `FlowManager`.  Stateful Python code becomes explicit
state passing; calls into the external scheduler / data store / parent
flow become entries of an explicit effect trace; exceptions become
`Except` or an optional backtrace value.  Machine details that the code
does not rely on (serialization of protobufs to byte strings) are
modelled by storing the structures themselves.
-/

/-- The `jobs_pb2.GrrMessage.type` values used by the core. -/
inductive MsgType where
  | message
  | status
deriving DecidableEq

/-- The `jobs_pb2.GrrMessage.auth_state` values used by the core. -/
inductive AuthState where
  | unauthenticated
  | authenticated
deriving DecidableEq

/-- The `jobs_pb2.GrrStatus.status` codes used by the core. -/
inductive StatusCode where
  | ok
  | genericError
deriving DecidableEq

/-- The `jobs_pb2.CpuSeconds`: cpu usage counters (we only copy and compare
them, so the numeric type is irrelevant; we use `Nat`). -/
structure CpuSeconds where
  user_cpu_time : Nat := 0
  system_cpu_time : Nat := 0
deriving DecidableEq

/-- The `jobs_pb2.GrrStatus`, the payload of a STATUS message. -/
structure GrrStatus where
  status : StatusCode := .ok
  error_message : String := ""
  cpu_time_used : CpuSeconds := {}
  network_bytes_sent : Nat := 0
  child_session_id : String := ""
deriving DecidableEq

/-- A serialized protobuf payload (`GrrMessage.args`).  The code only
distinguishes `GrrStatus` payloads (via `isinstance`) from the rest, so
we keep the structure instead of bytes. -/
inductive Payload where
  | empty
  | blob (data : String)
  | status (s : GrrStatus)
deriving DecidableEq

/-- The `jobs_pb2.GrrMessage` restricted to the fields the core reads or
writes. -/
structure GrrMessage where
  session_id : String := ""
  name : String := ""
  request_id : Nat := 0
  response_id : Nat := 0
  type : MsgType := .message
  auth_state : AuthState := .unauthenticated
  args : Payload := .empty
  priority : Nat := 0
deriving DecidableEq

/-- The `jobs_pb2.RequestState` restricted to the fields the core reads or
writes.  Unset proto2 string fields are `""`, matching Python truthiness
checks such as `request.client_id or self.client_id`. -/
structure RequestState where
  id : Nat := 0
  session_id : String := ""
  client_id : String := ""
  next_state : String := ""
  flow_name : String := ""
  response_count : Nat := 0
  request : GrrMessage := {}
  ts_id : Nat := 0
  transmission_count : Nat := 0
deriving DecidableEq

/-- The `jobs_pb2.FlowPB.state` values. -/
inductive FlowState where
  | running
  | terminated
  | error
deriving DecidableEq

/-- The `jobs_pb2.FlowPB` restricted to the fields the core reads or writes.
`request_state` is `some` exactly when the Python protobuf
`HasField("request_state")` holds, i.e. when the flow has a parent. -/
structure FlowPB where
  session_id : String := ""
  name : String := ""
  state : FlowState := .running
  client_id : String := ""
  request_state : Option RequestState := none
  cpu_used : CpuSeconds := {}
  network_bytes_sent : Nat := 0
  backtrace : String := ""
  priority : Nat := 0
deriving DecidableEq

/-- A task scheduler task (`scheduler.SCHEDULER.Task`): a queue name and
a value; `Schedule` fills in `id`. -/
structure SchedTask where
  queue : String
  id : Nat := 0
  value : GrrMessage
deriving DecidableEq

/-- Externally visible actions of the embedded code: calls into the task
scheduler, the data store, the parent flow object and the stats
collector.  `queueResponse`/`queueRequest` stand for a
`FlowManager.QueueResponse`/`QueueRequest` whose buffered write is
flushed when the manager scope exits. -/
inductive Effect where
  | scheduleTask (queue : String) (msg : GrrMessage)
  | scheduleTasks (tasks : List SchedTask) (sync : Bool)
  | queueResponse (session : String) (msg : GrrMessage)
  | queueRequest (session : String) (rs : RequestState)
  | notifyQueue (queue : String) (session : String)
  | schedDelete (queue : Option String) (ids : List Nat)
  | save
  | notifyUser (msgType : String) (client : String) (text : String)
  | logClientError (client : String) (backtrace : String)
  | statsIncrement (counter : String)
  | statsAdd (counter : String) (n : Nat)
deriving DecidableEq

/-- The in-memory context state shared by `HuntFlowContext` and
`FlowContext` (`flow_context.py`, `__init__`).  `new_request_states` is
the pending request buffer, `outstanding` is `_outstanding_requests`
(a Python int, so `Int`). -/
structure FlowCtx where
  session_id : String := ""
  queue_name : String := "W"
  client_id : String := ""
  flow_pb : FlowPB := {}
  next_states : List String := []
  current_state : String := "Start"
  next_outbound_id : Nat := 1
  new_request_states : List RequestState := []
  outstanding : Int := 0
  children : List String := []
deriving DecidableEq

/-- The `HuntFlowContext` instances have `process_requests_in_order = False`,
`FlowContext` instances have `True`. -/
inductive CtxKind where
  | hunt
  | flow
deriving DecidableEq

def CtxKind.ordered : CtxKind → Bool
  | .hunt => false
  | .flow => true

/-! ### The ProcessCompletedRequests scan loop

`HuntFlowContext.ProcessCompletedRequests` iterates over the fetched
`(request, responses)` pairs.  The loop body only touches the running
flag (`IsRunning`, i.e. `flow_pb.state == RUNNING`), the pending buffer
`new_request_states`, `_outstanding_requests` and the engine-private
cursor `next_processed_request`.  A dispatched state method (and the
`Error` handler it may trigger) can mutate the first three — we
parameterise over an arbitrary `disp` oracle for that — but nothing in
`_Process`/`_ProcessSingleRequest`/`Error` touches
`next_processed_request`, so the cursor is threaded separately. -/

structure ScanSt where
  running : Bool := true
  pending : List RequestState := []
  outstanding : Int := 0
deriving DecidableEq

/-- Trace events of one scan: a request/response set removed from the
store (`DeleteFlowRequestStates`), a request re-queued for
retransmission, a request dispatched to its state method. -/
inductive ScanEv where
  | deleted (rid : Nat)
  | retransmitted (rid : Nat)
  | dispatched (rid : Nat)
deriving DecidableEq

/-- Last element of a response list (`responses[-1]`); only used after a
non-emptiness check, the default is irrelevant. -/
def lastOf (l : List GrrMessage) : GrrMessage := l.getLastD {}

/-- The loop of `ProcessCompletedRequests` (`flow_context.py` lines
272-320), one-to-one with the source: skip the id-0 sentinel, skip
requests with no responses, then for an ordered context break on a
request beyond the cursor, delete stale requests below the cursor,
count out-of-order requests (dead code after the two previous checks);
skip requests whose last response is not a STATUS; claim (delete) the
request; on a response-id gap either re-queue it with a bumped
`transmission_count` (when `< 5`) or abandon it, and stop the scan; else
dispatch it when still running, advance the cursor, decrement the
outstanding counter and continue. -/
def processLoop (ordered : Bool) (disp : RequestState → List GrrMessage → ScanSt → ScanSt) :
    List (RequestState × List GrrMessage) → Nat → ScanSt → Nat × ScanSt × List ScanEv
  | [], npr, st => (npr, st, [])
  | (request, responses) :: rest, npr, st =>
    if request.id = 0 then processLoop ordered disp rest npr st
    else if responses = [] then processLoop ordered disp rest npr st
    else if ordered = true ∧ npr < request.id then (npr, st, [])
    else if ordered = true ∧ request.id < npr then
      let r := processLoop ordered disp rest npr st
      (r.1, r.2.1, .deleted request.id :: r.2.2)
    else if ordered = true ∧ request.id ≠ npr then (npr, st, [])
    else if (lastOf responses).type ≠ .status then processLoop ordered disp rest npr st
    else if responses.length ≠ (lastOf responses).response_id then
      if request.transmission_count < 5 then
        (npr,
         { st with pending := st.pending ++
             [{ request with transmission_count := request.transmission_count + 1 }] },
         [.deleted request.id, .retransmitted request.id])
      else (npr, st, [.deleted request.id])
    else if st.running then
      let st1 := disp request responses st
      let r := processLoop ordered disp rest (npr + 1)
        { st1 with outstanding := st1.outstanding - 1 }
      (r.1, r.2.1, .deleted request.id :: .dispatched request.id :: r.2.2)
    else (npr, st, [.deleted request.id])

/-- The ids of the dispatched requests of a scan trace, in trace order. -/
def dispatchedIds : List ScanEv → List Nat
  | [] => []
  | .dispatched i :: t => i :: dispatchedIds t
  | .deleted _ :: t => dispatchedIds t
  | .retransmitted _ :: t => dispatchedIds t

/-! ### SendReply, Error, and _ProcessSingleRequest -/

/-- The `request_state.session_id.split(":")[0]` — the worker queue of the
parent session. -/
def workerQueueOf (session : String) : String := (session.splitOn ":").headD ""

/-- The `HuntFlowContext.SendReply` (`flow_context.py` lines 541-592).  With
no parent (`request_state` unset) it does nothing.  Otherwise it bumps
the parent request's `response_count`, stamps resource usage and the
child session id onto a `GrrStatus` payload, builds the reply message,
schedules STATUS replies on the parent's worker queue, queues the reply
on the parent's flow state (written when the manager scope exits, which
also issues the manager's trailing empty scheduler delete) and finally
notifies the parent's worker queue. -/
def sendReply (ctx : FlowCtx) (response_proto : Payload) : FlowCtx × List Effect :=
  match ctx.flow_pb.request_state with
  | none => (ctx, [])
  | some request_state =>
    let rs : RequestState :=
      { request_state with response_count := request_state.response_count + 1 }
    let worker_queue := workerQueueOf rs.session_id
    let proto : Payload :=
      match response_proto with
      | .status s =>
        .status { s with
          cpu_time_used := ctx.flow_pb.cpu_used,
          network_bytes_sent := ctx.flow_pb.network_bytes_sent,
          child_session_id := ctx.session_id }
      | p => p
    let isStatus : Bool := match response_proto with | .status _ => true | _ => false
    let msg : GrrMessage :=
      { session_id := rs.session_id,
        request_id := rs.id,
        response_id := rs.response_count,
        auth_state := .authenticated,
        args := proto,
        type := if isStatus then .status else .message }
    let ctx1 := { ctx with flow_pb := { ctx.flow_pb with request_state := some rs } }
    (ctx1,
     (if isStatus then [Effect.scheduleTask worker_queue msg] else []) ++
       [Effect.queueResponse rs.session_id msg,
        Effect.schedDelete none [],
        Effect.notifyQueue worker_queue rs.session_id])

/-- The `FlowContext.Error` (`flow_context.py` lines 734-757): when the flow
is RUNNING, set it to ERROR, send the parent a GENERIC_ERROR STATUS
reply carrying the backtrace, record the backtrace in the flow record,
save the flow and notify the user.  The optional backtrace argument is
a string, `""` standing for Python `None`. -/
def flowError (ctx : FlowCtx) (backtrace : String) : FlowCtx × List Effect :=
  if ctx.flow_pb.state = .running then
    let ctx1 := { ctx with flow_pb := { ctx.flow_pb with state := .error } }
    let reply : GrrStatus :=
      { status := .genericError,
        error_message := if backtrace ≠ "" then backtrace else "" }
    let sent := sendReply ctx1 (.status reply)
    let ctx2 := sent.1
    let ctx3 :=
      if backtrace ≠ "" then
        { ctx2 with flow_pb := { ctx2.flow_pb with backtrace := backtrace } }
      else ctx2
    (ctx3, sent.2 ++
      [Effect.save,
       Effect.notifyUser "FlowStatus" ctx.client_id
         ("Flow (" ++ ctx.session_id ++ ") terminated due to error")])
  else (ctx, [])

/-- The `HuntFlowContext.Error` (`flow_context.py` lines 635-637) only logs
a client error via the parent flow object; `errorCall` selects the
variant by context kind. -/
def errorCall : CtxKind → FlowCtx → String → String → FlowCtx × List Effect
  | .hunt, ctx, client_id, backtrace => (ctx, [.logClientError client_id backtrace])
  | .flow, ctx, _, backtrace => flowError ctx backtrace

/-- The `HuntFlowContext._ProcessSingleRequest` (`flow_context.py` lines
364-395).  The state method is an oracle `handler` receiving the context
(with `current_state` already set); it returns the mutated context and,
when it raised, the backtrace of the uncaught exception.  Every
exception is caught: the function always returns, incrementing the
error counter and delegating to the context's `Error`. -/
def processSingleRequest (kind : CtxKind) (ctx : FlowCtx) (request : RequestState)
    (handler : FlowCtx → FlowCtx × Option String) : FlowCtx × List Effect :=
  let ctx0 := { ctx with current_state := request.next_state }
  let client_id := if request.client_id ≠ "" then request.client_id else ctx.client_id
  match handler ctx0 with
  | (c, none) => (c, [])
  | (c, some backtrace) =>
    let r := errorCall kind c client_id backtrace
    (r.1, Effect.statsIncrement "grr_flow_errors" :: r.2)

/-- A concrete hunt context with a parent request state, used to refute
the claim that every context converts dispatch errors to a flow-level
ERROR. -/
def huntErrCtx : FlowCtx :=
  { session_id := "W:2", client_id := "C2",
    flow_pb := { state := .running,
                 request_state := some { id := 3, session_id := "W:1" } } }

/-- A concrete ordered-flow context with a parent, for the witness of
`dispatch_error_conversion`. -/
def flowErrCtx : FlowCtx :=
  { session_id := "W:9", client_id := "C9",
    flow_pb := { state := .running,
                 request_state := some { id := 2, session_id := "W:8" } } }

/-! ### CallClient and CallFlow -/

/-- The two `FlowContextError` exceptions raised by `CallClient` /
`CallFlow`: a missing `next_state` (`"next_state is not specified for
CallClient"`) and an undeclared `next_state` on an ordered context
(`"State ... not declared in decorator"`). -/
inductive FlowContextErr where
  | nextStateMissing
  | invalidStateTransition (currentState nextState : String)
deriving DecidableEq

/-- The `HuntFlowContext.CallClient` (`flow_context.py` lines 397-468).
The client action protobuf `args_pb` is opaque here.  `next_state` is
`Option String` (`none` is Python `None`).  The declared-state check is
performed before any mutation, so an error leaves the context untouched
— which the `Except` result makes structural. -/
def huntCallClient (kind : CtxKind) (ctx : FlowCtx) (action_name : String)
    (args_pb : Payload) (next_state : Option String) (client_id : String) :
    Except FlowContextErr FlowCtx :=
  match next_state with
  | none => .error .nextStateMissing
  | some ns =>
    if kind.ordered = true ∧ ¬ ns ∈ ctx.next_states then
      .error (.invalidStateTransition ctx.current_state ns)
    else
      let outbound_id := ctx.next_outbound_id
      let msg : GrrMessage :=
        { session_id := ctx.session_id, name := action_name,
          request_id := outbound_id, args := args_pb,
          priority := ctx.flow_pb.priority }
      let state : RequestState :=
        { id := outbound_id, session_id := ctx.session_id,
          next_state := ns, client_id := client_id, request := msg }
      .ok { ctx with
        next_outbound_id := outbound_id + 1,
        new_request_states := ctx.new_request_states ++ [state],
        outstanding := ctx.outstanding + 1 }

/-- The `FlowContext.CallClient` (lines 720-725): defaults `client_id` to
the context's client and delegates to the base class with ordering
enforced. -/
def flowCallClient (ctx : FlowCtx) (action_name : String) (args_pb : Payload)
    (next_state : Option String) (client_id : String) :
    Except FlowContextErr FlowCtx :=
  huntCallClient .flow ctx action_name args_pb next_state
    (if client_id ≠ "" then client_id else ctx.client_id)

/-- The `HuntFlowContext.CallFlow` (`flow_context.py` lines 470-539).  The
undeclared-state check fires only when the context is ordered **and**
`next_state` is truthy (`if next_state and next_state not in
self.next_states`).  `StartFlow` is an oracle: it may push the child's
initial requests onto the shared pending buffer
(`_parent_request_queue`) and returns the child session id. -/
def huntCallFlow (kind : CtxKind) (ctx : FlowCtx) (flow_name : String)
    (next_state : Option String) (client_id : String)
    (childRequests : List RequestState) (childSession : String) :
    Except FlowContextErr FlowCtx :=
  let ns := next_state.getD ""
  if kind.ordered = true ∧ ns ≠ "" ∧ ¬ ns ∈ ctx.next_states then
    .error (.invalidStateTransition ctx.current_state ns)
  else
    let client := if client_id ≠ "" then client_id else ctx.client_id
    let outbound_id := ctx.next_outbound_id
    let state : RequestState :=
      { id := outbound_id, session_id := ctx.session_id, client_id := client,
        next_state := ns, flow_name := flow_name, response_count := 0 }
    .ok { ctx with
      next_outbound_id := outbound_id + 1,
      new_request_states := ctx.new_request_states ++ childRequests ++ [state],
      outstanding := ctx.outstanding + 1,
      children := ctx.children ++ [childSession] }

/-- The `FlowContext.CallFlow` (lines 727-732): defaults `client_id` and
delegates with ordering enforced. -/
def flowCallFlow (ctx : FlowCtx) (flow_name : String)
    (next_state : Option String) (client_id : String)
    (childRequests : List RequestState) (childSession : String) :
    Except FlowContextErr FlowCtx :=
  huntCallFlow .flow ctx flow_name next_state
    (if client_id ≠ "" then client_id else ctx.client_id)
    childRequests childSession

/-! ### The FlowManager store model

The data store holds, under the session's state subject
(`task:<session_id>:state`), a list of `(predicate, value)` cells.
Values are the deserialized protobufs (serialization round-trips, so we
store the structures; parsing bytes of the wrong message type is outside
the model).  `ResolveRegex` returns the matching cells up to a limit;
the source then sorts the returned `(predicate, value, timestamp)`
tuples, which for distinct predicates is a sort by predicate (Python
compares strings by code point, mirrored by `strLt`). -/

inductive StoreVal where
  | req (r : RequestState)
  | resp (m : GrrMessage)
deriving DecidableEq

abbrev Entry := String × StoreVal

/-- Python lexicographic string comparison (by code point). -/
def charsLt : List Char → List Char → Bool
  | [], [] => false
  | [], _ :: _ => true
  | _ :: _, [] => false
  | a :: as, b :: bs =>
    if a.toNat < b.toNat then true
    else if b.toNat < a.toNat then false
    else charsLt as bs

def strLt (a b : String) : Bool := charsLt a.data b.data

def entryLe (a b : Entry) : Bool := !(strLt b.1 a.1)

/-- Stable insertion into a sorted list (ties keep original order, like
Python's stable `sorted`). -/
def insEntry (x : Entry) : List Entry → List Entry
  | [] => [x]
  | y :: ys => if entryLe y x then y :: insEntry x ys else x :: y :: ys

/-- The `sorted(...)` over resolve results, keyed by predicate. -/
def sortEntries : List Entry → List Entry
  | [] => []
  | x :: xs => insEntry x (sortEntries xs)

/-- Python `str.split(sep)` on character lists (structural, so the
kernel can evaluate it; `String.splitOn` is defined by well-founded
recursion). -/
def splitChars (sep : Char) : List Char → List (List Char)
  | [] => [[]]
  | c :: cs =>
    let r := splitChars sep cs
    if c = sep then [] :: r
    else
      match r with
      | [] => [[c]]
      | h :: t => (c :: h) :: t

/-- The `data_store.ResolveRegex(subject, pattern, limit=...)`: the matching
cells, at most `limit` of them.  The two patterns used
(`flow:request:.*`, `flow:response:.*`) are plain key prefixes, so the
regex match is a prefix test. -/
def resolveRegex (entries : List Entry) (pat : String) (limit : Nat) : List Entry :=
  (entries.filter (fun e => pat.data.isPrefixOf e.1.data)).take limit

def request_limit : Nat := 10000

def response_limit : Nat := 100000

/-- The `predicate.split(":")[2]` — the request-id component of a
`flow:request:<id>` or `flow:response:<id>:<rid>` key. -/
def comp2 (pred : String) : String :=
  String.mk (((splitChars ':' pred.data).drop 2).headD [])

/-- The `request.ParseFromString(serialized)` for a request cell; parsing
bytes of the wrong message type is outside the model. -/
def parseReq : StoreVal → RequestState
  | .req r => r
  | .resp _ => {}

/-- The `response.ParseFromString(serialized)` for a response cell. -/
def parseResp : StoreVal → GrrMessage
  | .resp m => m
  | .req _ => {}

/-- The `meta_data = state_map.setdefault(request.id, {});
meta_data["REQUEST_STATE"] = request` — insert or overwrite the request
under its id, keeping any responses already recorded. -/
def setRequest (m : List (Nat × RequestState × List GrrMessage))
    (request : RequestState) : List (Nat × RequestState × List GrrMessage) :=
  if m.any (fun e => e.1 = request.id) then
    m.map (fun e => if e.1 = request.id then (e.1, request, e.2.2) else e)
  else m ++ [(request.id, request, [])]

/-- The `if response.request_id in state_map: ...append(response)` — append
the response to its request's list when the id is present. -/
def addResponse (m : List (Nat × RequestState × List GrrMessage))
    (response : GrrMessage) : List (Nat × RequestState × List GrrMessage) :=
  m.map (fun e =>
    if e.1 = response.request_id then (e.1, e.2.1, e.2.2 ++ [response]) else e)

/-- The for-loop over the sorted request scan: build the id-keyed state
map (`setdefault` + overwrite of `REQUEST_STATE`), remember the last
(maximal) request-id component, and count the scanned cells. -/
def reqPhase : List Entry → List (Nat × RequestState × List GrrMessage) →
    String → Nat → List (Nat × RequestState × List GrrMessage) × String × Nat
  | [], m, maxReq, cnt => (m, maxReq, cnt)
  | (pred, v) :: rest, m, _, cnt =>
    reqPhase rest (setRequest m (parseReq v)) (comp2 pred) (cnt + 1)

/-- The for-loop over the sorted response scan: count the cell, break at
the first response keyed past the last scanned request id, and append
the response to its request's list when the request id is present in the
state map. -/
def respPhase (maxReq : String) :
    List Entry → List (Nat × RequestState × List GrrMessage) → Nat →
    List (Nat × RequestState × List GrrMessage) × Nat
  | [], m, cnt => (m, cnt)
  | (pred, v) :: rest, m, cnt =>
    let cnt' := cnt + 1
    if strLt maxReq (comp2 pred) then (m, cnt')
    else respPhase maxReq rest (addResponse m (parseResp v)) cnt'

/-- Insertion into the final `sorted(state_map)` iteration order
(ascending request id; keys are unique so ties cannot occur). -/
def insPair (x : Nat × RequestState × List GrrMessage) :
    List (Nat × RequestState × List GrrMessage) →
    List (Nat × RequestState × List GrrMessage)
  | [] => [x]
  | y :: ys => if y.1 ≤ x.1 then y :: insPair x ys else x :: y :: ys

def sortPairs : List (Nat × RequestState × List GrrMessage) →
    List (Nat × RequestState × List GrrMessage)
  | [] => []
  | x :: xs => insPair x (sortPairs xs)

/-- The `FlowManager.FetchRequestsAndResponses` (`flow_context.py` lines
818-878) on the two scans: returns the joined pairs it yields (the
generator yields everything before raising) together with the MORE_DATA
flag (`request_count >= request_limit or response_count >=
response_limit`, raised after the yields).  The state map starts with
the id-0 sentinel `RequestState(id=0)`. -/
def fetchRR (reqScan respScan : List Entry) :
    List (RequestState × List GrrMessage) × Bool :=
  let r := reqPhase (sortEntries reqScan) [(0, ({ id := 0 }, []))] "00000000" 0
  let s := respPhase r.2.1 (sortEntries respScan) r.1 0
  ((sortPairs s.1).map (fun e => (e.2.1, e.2.2)),
   decide (request_limit ≤ r.2.2) || decide (response_limit ≤ s.2))

/-- The `FetchRequestsAndResponses` reading its two bounded scans from the
session's store cells. -/
def fetchFromStore (entries : List Entry) :
    List (RequestState × List GrrMessage) × Bool :=
  fetchRR (resolveRegex entries "flow:request:" request_limit)
    (resolveRegex entries "flow:response:" response_limit)

/-- An uppercase hex digit. -/
def hexDigit (n : Nat) : Char :=
  if n < 10 then Char.ofNat (48 + n) else Char.ofNat (55 + n)

/-- The `"%08X" % n` for the ids the core generates (all below `2^32`). -/
def hex8 (n : Nat) : String :=
  String.mk ((List.range 8).map (fun i => hexDigit (n / 16 ^ (7 - i) % 16)))

/-- The mutable state of a `FlowManager` (`flow_context.py` lines
802-816): buffered writes and deletes, the accumulated client task ids,
and the single `client_id` cell that each recorded request overwrites. -/
structure FlowManagerSt where
  to_write : List Entry := []
  to_delete : List String := []
  client_messages : List Nat := []
  client_id : Option String := none
deriving DecidableEq

/-- The `FlowManager.DeleteFlowRequestStates` (lines 880-893): mark the
request key and every response key for deletion, record the request's
task id and overwrite the manager's `client_id` (requests are non-None
here; `WellKnownFlowManager` alone yields `None` requests). -/
def deleteFlowRequestStates (fm : FlowManagerSt) (request_state : RequestState)
    (responses : List GrrMessage) : FlowManagerSt :=
  { fm with
    to_delete := fm.to_delete ++ ["flow:request:" ++ hex8 request_state.id] ++
      responses.map (fun r =>
        "flow:response:" ++ hex8 r.request_id ++ ":" ++ hex8 r.response_id),
    client_messages := fm.client_messages ++ [request_state.ts_id],
    client_id := some request_state.client_id }

/-- The `FlowManager.DestroyFlowStates` (lines 895-902): walk the fetched
pairs recording every task id (overwriting `client_id` each time), then
delete the whole subject — unless the fetch hit a scan limit, in which
case the generator's MoreDataException fires after the last yield and
`DeleteSubject` is never reached (the flag is returned). -/
def destroyStep (acc : FlowManagerSt) (p : RequestState × List GrrMessage) :
    FlowManagerSt :=
  { acc with client_messages := acc.client_messages ++ [p.1.ts_id],
             client_id := some p.1.client_id }

def destroyFlowStates (fm : FlowManagerSt) (entries : List Entry) :
    FlowManagerSt × List Entry × Bool :=
  let fetched := fetchFromStore entries
  let fm' := fetched.1.foldl destroyStep fm
  if fetched.2 then (fm', entries, true) else (fm', [], false)

/-- The `FlowManager.Flush` (lines 904-917): apply the buffered writes and
deletes to the subject (data-store errors are swallowed — writes are
total here), then hand all accumulated task ids to the scheduler's
`Delete` using the manager's single `client_id` value. -/
def flushFM (fm : FlowManagerSt) (entries : List Entry) :
    List Entry × List Effect :=
  (entries.filter (fun e => !fm.to_delete.contains e.1) ++ fm.to_write,
   [Effect.schedDelete fm.client_id fm.client_messages])

/-- The `HuntFlowContext.Terminate` (`flow_context.py` lines 642-658): scoped
`DestroyFlowStates` (the manager's `Flush` runs on scope exit even when
MoreDataException was raised, and the exception is swallowed); then, if
the flow is still RUNNING, `SendReply(GrrStatus())`, transition to
TERMINATED and save. -/
def terminate (ctx : FlowCtx) (entries : List Entry) :
    FlowCtx × List Entry × List Effect :=
  let d := destroyFlowStates {} entries
  let f := flushFM d.1 d.2.1
  if ctx.flow_pb.state = .running then
    let sent := sendReply ctx (.status {})
    let ctx2 := { sent.1 with flow_pb := { sent.1.flow_pb with state := .terminated } }
    (ctx2, f.1, f.2 ++ sent.2 ++ [Effect.save])
  else (ctx, f.1, f.2)

/-- The STATUS reply message `SendReply` builds for parent request `rs`. -/
def statusMsg (ctx : FlowCtx) (s : GrrStatus) (rs : RequestState) : GrrMessage :=
  { session_id := rs.session_id, request_id := rs.id,
    response_id := rs.response_count + 1, type := .status,
    auth_state := .authenticated,
    args := .status { s with
      cpu_time_used := ctx.flow_pb.cpu_used,
      network_bytes_sent := ctx.flow_pb.network_bytes_sent,
      child_session_id := ctx.session_id } }

/-- Returns `true` iff the trace contains a scheduler `Delete` on `queue` whose
ids include `tid`. -/
def tsDeletedFor (queue : String) (tid : Nat) (effs : List Effect) : Bool :=
  effs.any (fun e => match e with
    | .schedDelete q ids => q == some queue && ids.contains tid
    | _ => false)

/-- A session store holding two requests that belong to two distinct
clients. -/
def twoClientEntries : List Entry :=
  [("flow:request:00000001", .req { id := 1, client_id := "C1", ts_id := 101 }),
   ("flow:request:00000002", .req { id := 2, client_id := "C2", ts_id := 202 })]

/-- The request cell and the two kinds of response cells of the
MORE_DATA counterexample store. -/
def ceReqCell : Entry := ("flow:request:00000002", .req { id := 2 })

def ceRespIn : Entry :=
  ("flow:response:00000002:00000001", .resp { request_id := 2, response_id := 1 })

def ceRespOut : Entry :=
  ("flow:response:00000003:00000001", .resp { request_id := 3, response_id := 1 })

/-- A store whose response scan returns exactly `response_limit` cells,
all but the first keyed past the only request: 99,999 responses for the
(absent) request 3. -/
def ceStore : List Entry := ceReqCell :: ceRespIn :: List.replicate 99999 ceRespOut

/-! ### FlushMessages -/

/-- Modelled from the spec: `utils.GroupBy(items, key)` — the helper
lives in `grr/lib/utils.py`, which is not part of the source tree.  Per
the spec ("Group by `client_id`; for each group, ..."), it partitions
the items by key value, each group preserving the items' relative
order. -/
def groupBy {α κ : Type} [DecidableEq κ] (key : α → κ) : List α → List (κ × List α)
  | [] => []
  | x :: xs =>
    (key x, x :: xs.filter (fun y => key y == key x)) ::
      groupBy key (xs.filter (fun y => !(key y == key x)))
termination_by l => l.length
decreasing_by
  simp only [List.length_cons]
  exact Nat.lt_succ_of_le (List.length_filter_le _ _)

/-- Python `enumerate`, used to model in-place mutation of the
`to_flush` list by position. -/
def enumFromN {α : Type} : Nat → List α → List (Nat × α)
  | _, [] => []
  | n, a :: as => (n, a) :: enumFromN (n + 1) as

/-- Result of the per-client scheduling pass of `FlushMessages`:
positional `ts_id` assignments, the scheduled tasks, the Schedule
effects, and the scheduler's next task id. -/
structure SchedOut where
  assignments : List (Nat × Nat) := []
  tasks : List SchedTask := []
  effects : List Effect := []
  nextTaskId : Nat := 0
deriving DecidableEq

/-- The first half of `FlushMessages` (`flow_context.py` lines 604-622):
for each `client_id` group, the subset with a non-empty embedded
`request.name` is scheduled as tasks on the client's queue with
`sync=True`; `Schedule` assigns consecutive task ids, which are copied
back into the matching `RequestState.ts_id` (represented positionally by
`assignments`, since Python mutates the shared objects in place). -/
def schedulePhase : List (String × List (Nat × RequestState)) → Nat → SchedOut
  | [], nid => { nextTaskId := nid }
  | (destination, grp) :: gs, nid =>
    let to_schedule := grp.filter (fun p => p.2.request.name != "")
    let tasks := (enumFromN 0 to_schedule).map
      (fun q => ({ queue := destination, id := nid + q.1, value := q.2.2.request } : SchedTask))
    let asg := (enumFromN 0 to_schedule).map (fun q => (q.2.1, nid + q.1))
    let r := schedulePhase gs (nid + to_schedule.length)
    { assignments := asg ++ r.assignments,
      tasks := tasks ++ r.tasks,
      effects := Effect.scheduleTasks tasks true ::
        Effect.statsAdd "grr_worker_requests_issued" tasks.length :: r.effects,
      nextTaskId := r.nextTaskId }

/-- Result of `FlushMessages`. -/
structure FlushOut where
  newPending : List RequestState
  tasks : List SchedTask
  effects : List Effect
  flushed : List RequestState
  writes : List (String × String × RequestState)
  nextTaskId : Nat

/-- The `HuntFlowContext.FlushMessages` (`flow_context.py` lines 594-633):
swap the pending buffer out (leaving it empty), schedule the named
requests per client group and copy the task ids into `ts_id`, then group
the (now updated) flushed RequestStates by `session_id` and queue each
into its session's flow store (`QueueRequest` under the
`flow:request:%08X` key); MoreData errors during the store flush are
suppressed (store writes are total in the model). -/
def flushMessages (pending : List RequestState) (nid : Nat) : FlushOut :=
  let to_flush := enumFromN 0 pending
  let sched := schedulePhase (groupBy (fun p => p.2.client_id) to_flush) nid
  let flushed := to_flush.map (fun p =>
    match sched.assignments.lookup p.1 with
    | some t => { p.2 with ts_id := t }
    | none => p.2)
  let writes := (groupBy (fun r => r.session_id) flushed).flatMap
    (fun g => g.2.map (fun r => (g.1, "flow:request:" ++ hex8 r.id, r)))
  { newPending := [], tasks := sched.tasks, effects := sched.effects,
    flushed := flushed, writes := writes, nextTaskId := sched.nextTaskId }

/-- Requests for the `flushMessages_spec` witness: one with a named
outbound client action, one without. -/
def wReq1 : RequestState :=
  { id := 1, session_id := "W:1", client_id := "C1", request := { name := "Echo" } }

def wReq2 : RequestState := { id := 2, session_id := "W:1", client_id := "C2" }

/-! ### Theorems -/

theorem mem_dispatchedIds {i : Nat} : ∀ {evs : List ScanEv},
    i ∈ dispatchedIds evs ↔ ScanEv.dispatched i ∈ evs := by
  intro evs
  induction evs with
  | nil => simp [dispatchedIds]
  | cons e t ih =>
    cases e with
    | deleted j => simp [dispatchedIds, ih]
    | retransmitted j => simp [dispatchedIds, ih]
    | dispatched j =>
      simp only [dispatchedIds, List.mem_cons, ih]
      constructor
      · rintro (rfl | h)
        · exact Or.inl rfl
        · exact Or.inr h
      · rintro (h | h)
        · exact Or.inl (by injection h)
        · exact Or.inr h

/-- In an ordered scan the dispatched request ids are exactly the
consecutive block starting at the incoming cursor value, and the cursor
advances by one per dispatch. -/
theorem processLoop_ordered_dispatchedIds
    (disp : RequestState → List GrrMessage → ScanSt → ScanSt) :
    ∀ (pairs : List (RequestState × List GrrMessage)) (npr : Nat) (st : ScanSt),
      npr ≤ (processLoop true disp pairs npr st).1 ∧
      dispatchedIds (processLoop true disp pairs npr st).2.2 =
        List.range' npr ((processLoop true disp pairs npr st).1 - npr) := by
  intro pairs
  induction pairs with
  | nil => intro npr st; simp [processLoop, dispatchedIds]
  | cons hd rest ih =>
    intro npr st
    obtain ⟨request, responses⟩ := hd
    simp only [processLoop]
    split_ifs with h1 h2 h3 h4 h5 h6 h7 h8 h9
    · exact ih npr st
    · exact ih npr st
    · simp [dispatchedIds]
    · exact ⟨(ih npr st).1, by simp [dispatchedIds, (ih npr st).2]⟩
    · simp [dispatchedIds]
    · exact ih npr st
    · simp [dispatchedIds]
    · simp [dispatchedIds]
    · have hid : request.id = npr := by
        by_contra hne
        exact h5 ⟨trivial, hne⟩
      have hrec := ih (npr + 1)
        { running := (disp request responses st).running,
          pending := (disp request responses st).pending,
          outstanding := (disp request responses st).outstanding - 1 }
      refine ⟨by omega, ?_⟩
      simp only [dispatchedIds, hrec.2, hid]
      rw [show (processLoop true disp rest (npr + 1)
          { running := (disp request responses st).running,
            pending := (disp request responses st).pending,
            outstanding := (disp request responses st).outstanding - 1 }).1 - npr =
          ((processLoop true disp rest (npr + 1)
            { running := (disp request responses st).running,
              pending := (disp request responses st).pending,
              outstanding := (disp request responses st).outstanding - 1 }).1 - (npr + 1)) + 1
          from by omega, List.range'_succ]
    · simp [dispatchedIds]

/-- C1: for an ordered flow context (`process_requests_in_order` true)
the `ProcessCompletedRequests` scan dispatches requests in strictly
ascending request-id order — the dispatched ids are the consecutive
block `next_processed_request, +1, …` and the cursor advances by exactly
1 per dispatched request; a fetched request whose id is greater than
`next_processed_request` is not dispatched and stops the scan; a
request whose id is less than `next_processed_request` is deleted
without being dispatched. -/
theorem ordered_scan_dispatch_order
    (disp : RequestState → List GrrMessage → ScanSt → ScanSt)
    (pairs rest : List (RequestState × List GrrMessage))
    (request : RequestState) (responses : List GrrMessage)
    (npr : Nat) (st : ScanSt) :
    (npr ≤ (processLoop true disp pairs npr st).1 ∧
      dispatchedIds (processLoop true disp pairs npr st).2.2 =
        List.range' npr ((processLoop true disp pairs npr st).1 - npr)) ∧
    (request.id ≠ 0 → responses ≠ [] → npr < request.id →
      processLoop true disp ((request, responses) :: rest) npr st = (npr, st, [])) ∧
    (request.id ≠ 0 → responses ≠ [] → request.id < npr →
      ScanEv.deleted request.id ∈
          (processLoop true disp ((request, responses) :: rest) npr st).2.2 ∧
        ScanEv.dispatched request.id ∉
          (processLoop true disp ((request, responses) :: rest) npr st).2.2) := by
  refine ⟨processLoop_ordered_dispatchedIds disp pairs npr st, ?_, ?_⟩
  · intro h0 hne hgt
    simp only [processLoop]
    rw [if_neg h0, if_neg hne, if_pos ⟨trivial, hgt⟩]
  · intro h0 hne hlt
    have hstep : processLoop true disp ((request, responses) :: rest) npr st =
        ((processLoop true disp rest npr st).1, (processLoop true disp rest npr st).2.1,
          ScanEv.deleted request.id :: (processLoop true disp rest npr st).2.2) := by
      simp only [processLoop]
      rw [if_neg h0, if_neg hne, if_neg (by rintro ⟨-, h⟩; omega), if_pos ⟨trivial, hlt⟩]
    rw [hstep]
    refine ⟨List.mem_cons_self _ _, ?_⟩
    intro hmem
    rcases List.mem_cons.mp hmem with h | hmem
    · exact absurd h (by simp)
    · have := (processLoop_ordered_dispatchedIds disp rest npr st).2
      have hin : request.id ∈ dispatchedIds (processLoop true disp rest npr st).2.2 :=
        mem_dispatchedIds.mpr hmem
      rw [this] at hin
      rcases List.mem_range'.mp hin with ⟨i, -, hi⟩
      omega

/-- Witness for `ordered_scan_dispatch_order` at concrete inputs. -/
theorem ordered_scan_dispatch_order_witness :
    ((2:Nat) ≠ 0) ∧
    processLoop true (fun _ _ s => s)
        [({ id := 2 }, [{ type := .status, response_id := 1 }])] 1 {} = (1, {}, []) := by
  refine ⟨by decide, ?_⟩
  exact (ordered_scan_dispatch_order (fun _ _ s => s) []
    [] { id := 2 } [{ type := .status, response_id := 1 }] 1 {}).2.1
    (by decide) (by decide) (by decide)

/-- C3: in the `ProcessCompletedRequests` scan, a claimed request whose
responses end in a STATUS but whose response list has a gap
(`len(responses) != responses[-1].response_id`) is deleted and then, if
`transmission_count < 5`, re-enqueued on the pending buffer with the
count incremented; if `transmission_count >= 5` it is abandoned with no
increment and no re-enqueue.  In both cases it is not dispatched, the
scan of later requests stops, and the rest of the state — including the
running flag — is unchanged. -/
theorem scan_gap_retransmit_or_abandon
    (ordered : Bool) (disp : RequestState → List GrrMessage → ScanSt → ScanSt)
    (rest : List (RequestState × List GrrMessage))
    (request : RequestState) (responses : List GrrMessage)
    (npr : Nat) (st : ScanSt)
    (h0 : request.id ≠ 0) (hne : responses ≠ [])
    (hord : ordered = true → request.id = npr)
    (hlast : (lastOf responses).type = .status)
    (hgap : responses.length ≠ (lastOf responses).response_id) :
    (request.transmission_count < 5 →
      processLoop ordered disp ((request, responses) :: rest) npr st =
        (npr,
         { st with pending := st.pending ++
             [{ request with transmission_count := request.transmission_count + 1 }] },
         [.deleted request.id, .retransmitted request.id])) ∧
    (5 ≤ request.transmission_count →
      processLoop ordered disp ((request, responses) :: rest) npr st =
        (npr, st, [.deleted request.id])) := by
  have hckgt : ¬(ordered = true ∧ npr < request.id) := by
    rintro ⟨ho, hlt⟩; have := hord ho; omega
  have hcklt : ¬(ordered = true ∧ request.id < npr) := by
    rintro ⟨ho, hlt⟩; have := hord ho; omega
  have hckne : ¬(ordered = true ∧ request.id ≠ npr) := by
    rintro ⟨ho, hne'⟩; exact hne' (hord ho)
  constructor
  · intro htc
    simp only [processLoop]
    rw [if_neg h0, if_neg hne, if_neg hckgt, if_neg hcklt, if_neg hckne,
      if_neg (by simp [hlast]), if_pos hgap, if_pos htc]
  · intro htc
    simp only [processLoop]
    rw [if_neg h0, if_neg hne, if_neg hckgt, if_neg hcklt, if_neg hckne,
      if_neg (by simp [hlast]), if_pos hgap, if_neg (by omega)]

/-- Witness for `scan_gap_retransmit_or_abandon` at concrete inputs:
request id 1 with responses `[STATUS(response_id=2)]` (a gap), once with
`transmission_count = 0` and once with `transmission_count = 5`. -/
theorem scan_gap_retransmit_or_abandon_witness :
    processLoop true (fun _ _ s => s)
        [({ id := 1 }, [{ type := .status, response_id := 2 }])] 1 { running := true } =
      (1,
       { running := true,
         pending := [{ id := 1, transmission_count := 1 }], outstanding := 0 },
       [.deleted 1, .retransmitted 1]) ∧
    processLoop true (fun _ _ s => s)
        [({ id := 1, transmission_count := 5 },
          [{ type := .status, response_id := 2 }])] 1 { running := true } =
      (1, { running := true }, [.deleted 1]) := by
  constructor
  · have h := (scan_gap_retransmit_or_abandon true (fun _ _ s => s) []
      { id := 1 } [{ type := .status, response_id := 2 }] 1 { running := true }
      (by decide) (by decide) (fun _ => rfl) (by decide) (by decide)).1 (by decide)
    simpa using h
  · have h := (scan_gap_retransmit_or_abandon true (fun _ _ s => s) []
      { id := 1, transmission_count := 5 } [{ type := .status, response_id := 2 }] 1
      { running := true } (by decide) (by decide) (fun _ => rfl) (by decide) (by decide)).2
      (by decide)
    simpa using h

/-- C9: with no parent (`flow_pb.request_state` unset), `SendReply` is a
no-op: unchanged context and no external effect. -/
theorem sendReply_no_parent_noop (ctx : FlowCtx) (p : Payload)
    (h : ctx.flow_pb.request_state = none) :
    sendReply ctx p = (ctx, []) := by
  unfold sendReply
  rw [h]

/-- Witness for `sendReply_no_parent_noop`: the default context has no
parent. -/
theorem sendReply_no_parent_noop_witness :
    sendReply {} (.status {}) = ({}, []) :=
  sendReply_no_parent_noop {} (.status {}) rfl

/-- C7: `SendReply` of a STATUS payload, for a flow with a parent
request state, queues to the parent's flow store a message whose
`response_id` is the incremented parent `response_count`, whose
`request_id` is the parent request id, whose type is STATUS, and whose
payload carries `child_session_id = ` the child's own session id and the
child's accumulated `cpu_time_used` / `network_bytes_sent`; the STATUS
is additionally scheduled as a task on the parent's worker queue (the
prefix of the parent session id before the colon), which is also
notified on exit. -/
theorem sendReply_status_to_parent (ctx : FlowCtx) (s : GrrStatus) (rs : RequestState)
    (h : ctx.flow_pb.request_state = some rs) :
    ∃ msg : GrrMessage,
      sendReply ctx (.status s) =
        ({ ctx with
            flow_pb := { ctx.flow_pb with
              request_state := some { rs with response_count := rs.response_count + 1 } } },
         [.scheduleTask (workerQueueOf rs.session_id) msg,
          .queueResponse rs.session_id msg,
          .schedDelete none [],
          .notifyQueue (workerQueueOf rs.session_id) rs.session_id]) ∧
      msg.response_id = rs.response_count + 1 ∧
      msg.request_id = rs.id ∧
      msg.type = .status ∧
      msg.session_id = rs.session_id ∧
      msg.auth_state = .authenticated ∧
      msg.args = .status { s with
        cpu_time_used := ctx.flow_pb.cpu_used,
        network_bytes_sent := ctx.flow_pb.network_bytes_sent,
        child_session_id := ctx.session_id } := by
  refine ⟨{ session_id := rs.session_id,
            request_id := rs.id,
            response_id := rs.response_count + 1,
            auth_state := .authenticated,
            args := .status { s with
              cpu_time_used := ctx.flow_pb.cpu_used,
              network_bytes_sent := ctx.flow_pb.network_bytes_sent,
              child_session_id := ctx.session_id },
            type := .status }, ?_, rfl, rfl, rfl, rfl, rfl, rfl⟩
  unfold sendReply
  rw [h]
  rfl

/-- Witness for `sendReply_status_to_parent` at a concrete context whose
parent request is `id = 4, response_count = 1` on session `"W:AA"`. -/
theorem sendReply_status_to_parent_witness :
    ∃ msg : GrrMessage,
      sendReply
          { session_id := "W:BB",
            flow_pb := { cpu_used := { user_cpu_time := 3, system_cpu_time := 4 },
                         network_bytes_sent := 77,
                         request_state := some { id := 4, session_id := "W:AA",
                                                 response_count := 1 } } }
          (.status {}) =
        ({ session_id := "W:BB",
           flow_pb := { cpu_used := { user_cpu_time := 3, system_cpu_time := 4 },
                        network_bytes_sent := 77,
                        request_state := some { id := 4, session_id := "W:AA",
                                                response_count := 2 } } },
         [.scheduleTask (workerQueueOf "W:AA") msg,
          .queueResponse "W:AA" msg,
          .schedDelete none [],
          .notifyQueue (workerQueueOf "W:AA") "W:AA"]) ∧
      msg.response_id = 2 ∧
      msg.request_id = 4 ∧
      msg.type = .status ∧
      msg.session_id = "W:AA" ∧
      msg.auth_state = .authenticated ∧
      msg.args = .status { cpu_time_used := { user_cpu_time := 3, system_cpu_time := 4 },
                           network_bytes_sent := 77,
                           child_session_id := "W:BB" } :=
  sendReply_status_to_parent
    { session_id := "W:BB",
      flow_pb := { cpu_used := { user_cpu_time := 3, system_cpu_time := 4 },
                   network_bytes_sent := 77,
                   request_state := some { id := 4, session_id := "W:AA",
                                           response_count := 1 } } }
    {} { id := 4, session_id := "W:AA", response_count := 1 } rfl

/-- Counterexample to C2: in a `HuntFlowContext` (lines 635-637 of the
source, `Error` only calls `LogClientError`), an uncaught state-method
exception does **not** set the flow state to ERROR and sends no STATUS
reply to the parent — the state stays RUNNING and the only effects are
the error counter and a client-error log entry. -/
theorem hunt_dispatch_error_not_converted :
    (processSingleRequest .hunt huntErrCtx { next_state := "S" }
        (fun c => (c, some "boom"))).1.flow_pb.state = .running ∧
    ¬ (processSingleRequest .hunt huntErrCtx { next_state := "S" }
        (fun c => (c, some "boom"))).1.flow_pb.state = .error ∧
    (processSingleRequest .hunt huntErrCtx { next_state := "S" }
        (fun c => (c, some "boom"))).2 =
      [.statsIncrement "grr_flow_errors", .logClientError "C2" "boom"] := by
  refine ⟨rfl, by decide, rfl⟩

/-- C2 (amended): an uncaught exception in a dispatched state method is
always caught (`processSingleRequest` is total and returns normally).
In an ordered `FlowContext` whose flow is still RUNNING it is converted
to a flow-level error: state becomes ERROR, the backtrace is recorded in
the flow record, a STATUS reply with GENERIC_ERROR carrying the
backtrace is queued to the parent when one exists, the flow is saved and
the user is notified.  In a `HuntFlowContext` the error is only logged
as a client error and the flow state is untouched. -/
theorem dispatch_error_conversion
    (ctx c : FlowCtx) (request : RequestState)
    (handler : FlowCtx → FlowCtx × Option String) (backtrace : String)
    (hh : handler { ctx with current_state := request.next_state } = (c, some backtrace))
    (hbt : backtrace ≠ "") (hrun : c.flow_pb.state = .running) :
    ((processSingleRequest .flow ctx request handler).1.flow_pb.state = .error ∧
     (processSingleRequest .flow ctx request handler).1.flow_pb.backtrace = backtrace ∧
     Effect.save ∈ (processSingleRequest .flow ctx request handler).2 ∧
     Effect.notifyUser "FlowStatus" c.client_id
         ("Flow (" ++ c.session_id ++ ") terminated due to error") ∈
       (processSingleRequest .flow ctx request handler).2 ∧
     (∀ prs, c.flow_pb.request_state = some prs →
        ∃ msg : GrrMessage,
          Effect.queueResponse prs.session_id msg ∈
              (processSingleRequest .flow ctx request handler).2 ∧
            msg.type = .status ∧
            msg.request_id = prs.id ∧
            msg.args = .status { status := .genericError, error_message := backtrace,
                                 cpu_time_used := c.flow_pb.cpu_used,
                                 network_bytes_sent := c.flow_pb.network_bytes_sent,
                                 child_session_id := c.session_id })) ∧
    processSingleRequest .hunt ctx request handler =
      (c, [Effect.statsIncrement "grr_flow_errors",
           Effect.logClientError
             (if request.client_id ≠ "" then request.client_id else ctx.client_id)
             backtrace]) := by
  have hkey : processSingleRequest .flow ctx request handler =
      ((flowError c backtrace).1,
       Effect.statsIncrement "grr_flow_errors" :: (flowError c backtrace).2) := by
    unfold processSingleRequest
    dsimp only
    rw [hh]
    rfl
  have hkey2 : processSingleRequest .hunt ctx request handler =
      (c, [Effect.statsIncrement "grr_flow_errors",
           Effect.logClientError
             (if request.client_id ≠ "" then request.client_id else ctx.client_id)
             backtrace]) := by
    unfold processSingleRequest
    dsimp only
    rw [hh]
    rfl
  refine ⟨?_, hkey2⟩
  rw [hkey]
  rcases hreq : c.flow_pb.request_state with _ | prs
  · have hfe : flowError c backtrace =
        ({ c with flow_pb := { c.flow_pb with state := .error, backtrace := backtrace } },
         [Effect.save,
          Effect.notifyUser "FlowStatus" c.client_id
            ("Flow (" ++ c.session_id ++ ") terminated due to error")]) := by
      unfold flowError sendReply
      rw [if_pos hrun]
      dsimp only
      rw [hreq]
      simp only [if_pos hbt]
      rfl
    rw [hfe]
    refine ⟨rfl, rfl, by simp, by simp, ?_⟩
    intro prs2 hprs2
    exact absurd hprs2 (by simp)
  · have hfe : flowError c backtrace =
        ({ c with
            flow_pb := { c.flow_pb with
              state := .error, backtrace := backtrace,
              request_state := some { prs with
                response_count := prs.response_count + 1 } } },
         [Effect.scheduleTask (workerQueueOf prs.session_id)
            { session_id := prs.session_id, request_id := prs.id,
              response_id := prs.response_count + 1, type := .status,
              auth_state := .authenticated,
              args := .status { status := .genericError, error_message := backtrace,
                                cpu_time_used := c.flow_pb.cpu_used,
                                network_bytes_sent := c.flow_pb.network_bytes_sent,
                                child_session_id := c.session_id } },
          Effect.queueResponse prs.session_id
            { session_id := prs.session_id, request_id := prs.id,
              response_id := prs.response_count + 1, type := .status,
              auth_state := .authenticated,
              args := .status { status := .genericError, error_message := backtrace,
                                cpu_time_used := c.flow_pb.cpu_used,
                                network_bytes_sent := c.flow_pb.network_bytes_sent,
                                child_session_id := c.session_id } },
          Effect.schedDelete none [],
          Effect.notifyQueue (workerQueueOf prs.session_id) prs.session_id,
          Effect.save,
          Effect.notifyUser "FlowStatus" c.client_id
            ("Flow (" ++ c.session_id ++ ") terminated due to error")]) := by
      unfold flowError sendReply
      rw [if_pos hrun]
      dsimp only
      rw [hreq]
      simp only [if_pos hbt]
      rfl
    rw [hfe]
    refine ⟨rfl, rfl, by simp, by simp, ?_⟩
    intro prs2 hprs2
    injection hprs2 with hpe
    subst hpe
    refine ⟨{ session_id := prs.session_id, request_id := prs.id,
              response_id := prs.response_count + 1, type := .status,
              auth_state := .authenticated,
              args := .status { status := .genericError, error_message := backtrace,
                                cpu_time_used := c.flow_pb.cpu_used,
                                network_bytes_sent := c.flow_pb.network_bytes_sent,
                                child_session_id := c.session_id } }, ?_, rfl, rfl, rfl⟩
    simp

/-- Witness for `dispatch_error_conversion` at a concrete context and a
handler that raises with backtrace `"tberr"`. -/
theorem dispatch_error_conversion_witness :
    (processSingleRequest .flow flowErrCtx { next_state := "S2" }
        (fun x => (x, some "tberr"))).1.flow_pb.state = .error ∧
    (processSingleRequest .hunt flowErrCtx { next_state := "S2" }
        (fun x => (x, some "tberr"))).1.flow_pb.state = .running := by
  have h := dispatch_error_conversion flowErrCtx
    { flowErrCtx with current_state := "S2" } { next_state := "S2" }
    (fun x => (x, some "tberr")) "tberr" rfl (by decide) rfl
  refine ⟨h.1.1, ?_⟩
  rw [h.2]
  rfl

/-- Counterexample to C8: on an ordered `FlowContext`, `CallFlow` with a
falsy `next_state` (`None`) does **not** raise even though `None` is not
in the declared `next_states` list — the call succeeds and has its
normal effects (a `RequestState` is appended, `outstanding_requests` is
incremented, an outbound id is consumed). -/
theorem ordered_callFlow_falsy_next_state_no_error :
    (¬ "" ∈ ({ next_states := ["A"] } : FlowCtx).next_states) ∧
    flowCallFlow { next_states := ["A"] } "child" none "" [] "W:2" =
      .ok { next_states := ["A"],
            next_outbound_id := 2,
            new_request_states :=
              [{ id := 1, session_id := "", client_id := "", next_state := "",
                 flow_name := "child", response_count := 0 }],
            outstanding := 1,
            children := ["W:2"] } := by
  constructor
  · decide
  · rfl

/-- C8 (amended): on an ordered `FlowContext`, `CallClient` raises a
`FlowContextError` whenever `next_state` is unspecified or not in the
declared `next_states` list, and `CallFlow` raises
INVALID_STATE_TRANSITION whenever `next_state` is non-empty and not in
the declared list; a falsy `next_state` makes `CallFlow` succeed.  On
the error paths the call has no effect: the `Except.error` result
carries no context, so no `RequestState` is appended, `outstanding` is
unchanged and no outbound id is consumed (the source raises before any
mutation). -/
theorem ordered_call_invalid_state_transition
    (ctx : FlowCtx) (action_name flow_name : String) (args_pb : Payload)
    (ns client_id childSession : String) (childRequests : List RequestState)
    (hns : ¬ ns ∈ ctx.next_states) :
    flowCallClient ctx action_name args_pb none client_id =
      .error .nextStateMissing ∧
    flowCallClient ctx action_name args_pb (some ns) client_id =
      .error (.invalidStateTransition ctx.current_state ns) ∧
    (ns ≠ "" →
      flowCallFlow ctx flow_name (some ns) client_id childRequests childSession =
        .error (.invalidStateTransition ctx.current_state ns)) ∧
    (∃ ctx2, flowCallFlow ctx flow_name none client_id childRequests childSession =
      .ok ctx2) := by
  refine ⟨rfl, ?_, ?_, ?_⟩
  · unfold flowCallClient huntCallClient
    dsimp only
    rw [if_pos (show CtxKind.flow.ordered = true ∧ ¬ ns ∈ ctx.next_states from ⟨rfl, hns⟩)]
  · intro hne
    unfold flowCallFlow huntCallFlow
    dsimp only
    rw [if_pos (show CtxKind.flow.ordered = true ∧ (some ns).getD "" ≠ "" ∧
      ¬ (some ns).getD "" ∈ ctx.next_states from ⟨rfl, hne, hns⟩)]
    rfl
  · refine ⟨{ ctx with
        next_outbound_id := ctx.next_outbound_id + 1,
        new_request_states := ctx.new_request_states ++ childRequests ++
          [{ id := ctx.next_outbound_id, session_id := ctx.session_id,
             client_id :=
               if (if client_id ≠ "" then client_id else ctx.client_id) ≠ "" then
                 if client_id ≠ "" then client_id else ctx.client_id
               else ctx.client_id,
             next_state := "", flow_name := flow_name, response_count := 0 }],
        outstanding := ctx.outstanding + 1,
        children := ctx.children ++ [childSession] }, ?_⟩
    unfold flowCallFlow huntCallFlow
    dsimp only
    rw [if_neg (show ¬ (CtxKind.flow.ordered = true ∧ (none : Option String).getD "" ≠ "" ∧
      ¬ (none : Option String).getD "" ∈ ctx.next_states) from by rintro ⟨-, h, -⟩; simp at h)]
    rfl

/-- Witness for `ordered_call_invalid_state_transition` with declared
states `["A"]` and `next_state = "B"`. -/
theorem ordered_call_invalid_state_transition_witness :
    flowCallClient { next_states := ["A"] } "Echo" .empty (some "B") "" =
      .error (.invalidStateTransition "Start" "B") ∧
    flowCallFlow { next_states := ["A"] } "child" (some "B") "" [] "W:2" =
      .error (.invalidStateTransition "Start" "B") := by
  have h := ordered_call_invalid_state_transition { next_states := ["A"] }
    "Echo" "child" .empty "B" "" "W:2" [] (by decide)
  exact ⟨h.2.1, h.2.2.1 (by decide)⟩

theorem delete_fold_client_messages
    (ps : List (RequestState × List GrrMessage)) : ∀ fm0 : FlowManagerSt,
    (ps.foldl (fun acc p => deleteFlowRequestStates acc p.1 p.2) fm0).client_messages =
      fm0.client_messages ++ ps.map (fun p => p.1.ts_id) := by
  induction ps with
  | nil => intro fm0; simp
  | cons p rest ih =>
    intro fm0
    simp only [List.foldl_cons, List.map_cons, ih]
    simp [deleteFlowRequestStates, List.append_assoc]

theorem delete_fold_client_id
    (ps : List (RequestState × List GrrMessage)) : ∀ fm0 : FlowManagerSt, ps ≠ [] →
    (ps.foldl (fun acc p => deleteFlowRequestStates acc p.1 p.2) fm0).client_id =
      some ((ps.getLastD ({}, [])).1.client_id) := by
  induction ps with
  | nil => intro fm0 h; exact absurd rfl h
  | cons p rest ih =>
    intro fm0 _
    rcases hr : rest with _ | ⟨q, qs⟩
    · simp [deleteFlowRequestStates]
    · rw [← hr]
      have hrne : rest ≠ [] := by rw [hr]; simp
      simp only [List.foldl_cons, ih _ hrne]
      rw [List.getLastD_cons]
      rcases rest with _ | ⟨a, as⟩
      · exact absurd rfl hrne
      · rw [List.getLastD_cons, List.getLastD_cons]

theorem destroy_fold_client_id
    (ps : List (RequestState × List GrrMessage)) : ∀ fm0 : FlowManagerSt, ps ≠ [] →
    (ps.foldl destroyStep fm0).client_id =
      some ((ps.getLastD ({}, [])).1.client_id) := by
  induction ps with
  | nil => intro fm0 h; exact absurd rfl h
  | cons p rest ih =>
    intro fm0 _
    rcases hr : rest with _ | ⟨q, qs⟩
    · simp [destroyStep]
    · rw [← hr]
      have hrne : rest ≠ [] := by rw [hr]; simp
      simp only [List.foldl_cons, ih _ hrne]
      rw [List.getLastD_cons]
      rcases rest with _ | ⟨a, as⟩
      · exact absurd rfl hrne
      · rw [List.getLastD_cons, List.getLastD_cons]

/-- C10: folding `DeleteFlowRequestStates` over several requests keeps
all their task ids but only the last request's `client_id`, so the
scope-exit `Flush` issues a single scheduler `Delete` naming the last
request's client queue for all accumulated ids; `DestroyFlowStates`
records its fetched requests the same way. -/
theorem flowManager_flush_single_delete_last_client
    (fm0 : FlowManagerSt) (ps : List (RequestState × List GrrMessage))
    (entries : List Entry) (hne : ps ≠ []) :
    ((ps.foldl (fun acc p => deleteFlowRequestStates acc p.1 p.2) fm0)).client_id =
        some ((ps.getLastD ({}, [])).1.client_id) ∧
    (flushFM (ps.foldl (fun acc p => deleteFlowRequestStates acc p.1 p.2) fm0) entries).2 =
      [Effect.schedDelete (some ((ps.getLastD ({}, [])).1.client_id))
        (fm0.client_messages ++ ps.map (fun p => p.1.ts_id))] ∧
    ((fetchFromStore entries).1 ≠ [] →
      (destroyFlowStates fm0 entries).1.client_id =
        some (((fetchFromStore entries).1.getLastD ({}, [])).1.client_id)) := by
  refine ⟨delete_fold_client_id ps fm0 hne, ?_, ?_⟩
  · unfold flushFM
    rw [delete_fold_client_id ps fm0 hne, delete_fold_client_messages ps fm0]
  · intro hf
    unfold destroyFlowStates
    dsimp only
    split_ifs <;>
      exact destroy_fold_client_id (fetchFromStore entries).1 fm0 hf

/-- Witness for `flowManager_flush_single_delete_last_client`: two
deleted requests belonging to clients `"C1"` and `"C2"`; the single
scheduler delete names `"C2"` for both task ids. -/
theorem flowManager_flush_single_delete_last_client_witness :
    (flushFM ([({ client_id := "C1", ts_id := 101 }, ([] : List GrrMessage)),
               ({ client_id := "C2", ts_id := 202 }, [])].foldl
        (fun acc p => deleteFlowRequestStates acc p.1 p.2) {}) []).2 =
      [Effect.schedDelete (some "C2") [101, 202]] := by
  have h := flowManager_flush_single_delete_last_client {}
    [({ client_id := "C1", ts_id := 101 }, ([] : List GrrMessage)),
     ({ client_id := "C2", ts_id := 202 }, [])] [] (by simp)
  exact h.2.1

theorem sendReply_none (ctx : FlowCtx) (p : Payload)
    (h : ctx.flow_pb.request_state = none) : sendReply ctx p = (ctx, []) := by
  unfold sendReply
  rw [h]

theorem sendReply_some (ctx : FlowCtx) (s : GrrStatus) (rs : RequestState)
    (h : ctx.flow_pb.request_state = some rs) :
    sendReply ctx (.status s) =
      ({ ctx with
          flow_pb := { ctx.flow_pb with
            request_state := some { rs with response_count := rs.response_count + 1 } } },
       [.scheduleTask (workerQueueOf rs.session_id) (statusMsg ctx s rs),
        .queueResponse rs.session_id (statusMsg ctx s rs),
        .schedDelete none [],
        .notifyQueue (workerQueueOf rs.session_id) rs.session_id]) := by
  unfold sendReply statusMsg
  rw [h]
  rfl

theorem destroy_fold_to_write
    (ps : List (RequestState × List GrrMessage)) : ∀ fm0 : FlowManagerSt,
    (ps.foldl destroyStep fm0).to_write = fm0.to_write ∧
    (ps.foldl destroyStep fm0).to_delete = fm0.to_delete := by
  induction ps with
  | nil => intro fm0; exact ⟨rfl, rfl⟩
  | cons p rest ih =>
    intro fm0
    simpa [destroyStep] using ih _

theorem destroy_fold_client_messages
    (ps : List (RequestState × List GrrMessage)) : ∀ fm0 : FlowManagerSt,
    (ps.foldl destroyStep fm0).client_messages =
      fm0.client_messages ++ ps.map (fun p => p.1.ts_id) := by
  induction ps with
  | nil => intro fm0; simp
  | cons p rest ih =>
    intro fm0
    simp only [List.foldl_cons, List.map_cons, ih]
    simp [destroyStep, List.append_assoc]

/-- C4 (amended): after `Terminate` on a session whose fetch stays under
both scan limits, no `flow:request:*` or `flow:response:*` key remains
(the whole state subject is deleted); all task ids attached to the
session's fetched RequestStates are passed in one scheduler `Delete`
call whose queue argument is the `client_id` of the **last** fetched
request (not necessarily each id's own client queue); and if the flow
was RUNNING it transitions to TERMINATED after a `SendReply(STATUS)`
that reaches the parent when one exists. -/
theorem terminate_cleanup (ctx : FlowCtx) (entries : List Entry)
    (hmore : (fetchFromStore entries).2 = false) :
    (terminate ctx entries).2.1 = [] ∧
    ((fetchFromStore entries).1 ≠ [] →
      Effect.schedDelete
          (some (((fetchFromStore entries).1.getLastD ({}, [])).1.client_id))
          ((fetchFromStore entries).1.map (fun p => p.1.ts_id)) ∈
        (terminate ctx entries).2.2) ∧
    (∀ p ∈ (fetchFromStore entries).1, ∃ q ids,
      Effect.schedDelete q ids ∈ (terminate ctx entries).2.2 ∧ p.1.ts_id ∈ ids) ∧
    (ctx.flow_pb.state = .running →
      (terminate ctx entries).1.flow_pb.state = .terminated ∧
      (∀ prs, ctx.flow_pb.request_state = some prs →
        ∃ msg, Effect.queueResponse prs.session_id msg ∈ (terminate ctx entries).2.2 ∧
          msg.type = .status)) := by
  have hd : destroyFlowStates {} entries =
      ((fetchFromStore entries).1.foldl destroyStep {}, [], false) := by
    unfold destroyFlowStates
    dsimp only
    rw [hmore]
    rfl
  have hw := destroy_fold_to_write (fetchFromStore entries).1 ({} : FlowManagerSt)
  have hm := destroy_fold_client_messages (fetchFromStore entries).1 ({} : FlowManagerSt)
  have hflush : flushFM ((fetchFromStore entries).1.foldl destroyStep {}) [] =
      ([], [Effect.schedDelete
              ((fetchFromStore entries).1.foldl destroyStep {}).client_id
              ((fetchFromStore entries).1.map (fun p => p.1.ts_id))]) := by
    unfold flushFM
    rw [hm]
    rw [hw.1]
    rfl
  have hterm : terminate ctx entries =
      (if ctx.flow_pb.state = .running then
        ({ (sendReply ctx (.status {})).1 with
            flow_pb := { (sendReply ctx (.status {})).1.flow_pb with
              state := .terminated } },
         ([] : List Entry),
         [Effect.schedDelete
            ((fetchFromStore entries).1.foldl destroyStep {}).client_id
            ((fetchFromStore entries).1.map (fun p => p.1.ts_id))] ++
           (sendReply ctx (.status {})).2 ++ [Effect.save])
      else
        (ctx, ([] : List Entry),
         [Effect.schedDelete
            ((fetchFromStore entries).1.foldl destroyStep {}).client_id
            ((fetchFromStore entries).1.map (fun p => p.1.ts_id))])) := by
    unfold terminate
    dsimp only
    rw [hd]
    dsimp only
    rw [hflush]
  rw [hterm]
  refine ⟨?_, ?_, ?_, ?_⟩
  · split_ifs <;> rfl
  · intro hne
    rw [destroy_fold_client_id (fetchFromStore entries).1 {} hne]
    split_ifs <;> exact List.mem_cons_self _ _
  · intro p hp
    refine ⟨((fetchFromStore entries).1.foldl destroyStep {}).client_id,
      (fetchFromStore entries).1.map (fun p => p.1.ts_id), ?_,
      List.mem_map.mpr ⟨p, hp, rfl⟩⟩
    split_ifs <;> exact List.mem_cons_self _ _
  · intro hrun
    rw [if_pos hrun]
    rcases hpar : ctx.flow_pb.request_state with _ | prs
    · rw [sendReply_none ctx _ hpar]
      exact ⟨rfl, fun prs2 hprs2 => absurd hprs2 (by simp)⟩
    · rw [sendReply_some ctx {} prs hpar]
      refine ⟨rfl, fun prs2 hprs2 => ?_⟩
      injection hprs2 with hpe
      subst hpe
      exact ⟨statusMsg ctx {} prs, by simp, rfl⟩

/-- Counterexample to C4: after `Terminate` of a session whose deleted
requests belong to clients `"C1"` and `"C2"`, the task id `101` attached
to client `"C1"`'s RequestState is **not** passed to the scheduler's
`Delete` for its own client queue — it is deleted under `"C2"`, the
`client_id` of the last recorded request (`FlowManager.Flush` keeps a
single `client_id` cell). -/
theorem terminate_delete_wrong_queue :
    (∃ p ∈ (fetchFromStore twoClientEntries).1,
      p.1.client_id = "C1" ∧ p.1.ts_id = 101) ∧
    tsDeletedFor "C1" 101 (terminate {} twoClientEntries).2.2 = false ∧
    tsDeletedFor "C2" 101 (terminate {} twoClientEntries).2.2 = true := by
  refine ⟨?_, by decide, by decide⟩
  decide

/-- Witness for `terminate_cleanup` on the two-client store: the fetch
stays under the limits and the state subject is emptied. -/
theorem terminate_cleanup_witness :
    (fetchFromStore twoClientEntries).2 = false ∧
    (terminate {} twoClientEntries).2.1 = [] := by
  refine ⟨by decide, ?_⟩
  exact (terminate_cleanup {} twoClientEntries (by decide)).1

theorem sortEntries_length (l : List Entry) :
    (sortEntries l).length = l.length := by
  induction l with
  | nil => rfl
  | cons x xs ih =>
    have hins : ∀ (y : Entry) (m : List Entry), (insEntry y m).length = m.length + 1 := by
      intro y m
      induction m with
      | nil => rfl
      | cons z zs ihm =>
        unfold insEntry
        split_ifs
        · simp [ihm]
        · simp
    simp [sortEntries, hins, ih]

theorem reqPhase_count (l : List Entry) :
    ∀ (m : List (Nat × RequestState × List GrrMessage)) (maxR : String) (c : Nat),
    (reqPhase l m maxR c).2.2 = c + l.length := by
  induction l with
  | nil => intro m maxR c; simp [reqPhase]
  | cons e rest ih =>
    intro m maxR c
    obtain ⟨pred, v⟩ := e
    simp only [reqPhase, ih]
    simp
    omega

theorem respPhase_count_le (maxR : String) (l : List Entry) :
    ∀ (m : List (Nat × RequestState × List GrrMessage)) (c : Nat),
    (respPhase maxR l m c).2 ≤ c + l.length := by
  induction l with
  | nil => intro m c; simp [respPhase]
  | cons e rest ih =>
    intro m c
    obtain ⟨pred, v⟩ := e
    simp only [respPhase]
    split_ifs
    · simp only [List.length_cons]
      omega
    · have := ih (addResponse m (parseResp v)) (c + 1)
      simp only [List.length_cons]
      omega

theorem setRequest_keys_nodup (m : List (Nat × RequestState × List GrrMessage))
    (r : RequestState) (h : (m.map Prod.fst).Nodup) :
    ((setRequest m r).map Prod.fst).Nodup := by
  unfold setRequest
  split_ifs with hany
  · have heq : (m.map (fun e => if e.1 = r.id then (e.1, r, e.2.2) else e)).map Prod.fst =
        m.map Prod.fst := by
      rw [List.map_map]
      apply List.map_congr_left
      intro e _
      by_cases he : e.1 = r.id
      · simp [he]
      · simp [he]
    rw [heq]
    exact h
  · have hnm : r.id ∉ m.map Prod.fst := by
      intro hmem
      rcases List.mem_map.mp hmem with ⟨e, he, hfe⟩
      rw [List.any_eq_true] at hany
      exact hany ⟨e, he, by simp [hfe]⟩
    rw [List.map_append]
    refine (List.perm_append_singleton _ _).nodup_iff.mpr ?_
    exact List.Nodup.cons (by simpa using hnm) h

theorem setRequest_idinv (m : List (Nat × RequestState × List GrrMessage))
    (r : RequestState) (h : ∀ e ∈ m, e.2.1.id = e.1) :
    ∀ e ∈ setRequest m r, e.2.1.id = e.1 := by
  unfold setRequest
  split_ifs with hany
  · intro e he
    rcases List.mem_map.mp he with ⟨a, ha, hfa⟩
    by_cases hc : a.1 = r.id
    · rw [if_pos hc] at hfa
      rw [← hfa]
      simpa using hc.symm
    · rw [if_neg hc] at hfa
      rw [← hfa]
      exact h a ha
  · intro e he
    rcases List.mem_append.mp he with ha | ha
    · exact h e ha
    · rcases List.mem_singleton.mp ha with rfl
      rfl

theorem addResponse_keys_nodup (m : List (Nat × RequestState × List GrrMessage))
    (msg : GrrMessage) (h : (m.map Prod.fst).Nodup) :
    ((addResponse m msg).map Prod.fst).Nodup := by
  unfold addResponse
  have heq : (m.map (fun e =>
      if e.1 = msg.request_id then (e.1, e.2.1, e.2.2 ++ [msg]) else e)).map Prod.fst =
      m.map Prod.fst := by
    rw [List.map_map]
    apply List.map_congr_left
    intro e _
    by_cases he : e.1 = msg.request_id
    · simp [he]
    · simp [he]
  rw [heq]
  exact h

theorem addResponse_idinv (m : List (Nat × RequestState × List GrrMessage))
    (msg : GrrMessage) (h : ∀ e ∈ m, e.2.1.id = e.1) :
    ∀ e ∈ addResponse m msg, e.2.1.id = e.1 := by
  unfold addResponse
  intro e he
  rcases List.mem_map.mp he with ⟨a, ha, hfa⟩
  by_cases hc : a.1 = msg.request_id
  · rw [if_pos hc] at hfa
    rw [← hfa]
    exact h a ha
  · rw [if_neg hc] at hfa
    rw [← hfa]
    exact h a ha

theorem reqPhase_keys_nodup (l : List Entry) :
    ∀ (m : List (Nat × RequestState × List GrrMessage)) (maxR : String) (c : Nat),
    (m.map Prod.fst).Nodup → (((reqPhase l m maxR c).1).map Prod.fst).Nodup := by
  induction l with
  | nil => intro m maxR c h; simpa [reqPhase] using h
  | cons e rest ih =>
    intro m maxR c h
    obtain ⟨pred, v⟩ := e
    simp only [reqPhase]
    exact ih _ _ _ (setRequest_keys_nodup m (parseReq v) h)

theorem reqPhase_idinv (l : List Entry) :
    ∀ (m : List (Nat × RequestState × List GrrMessage)) (maxR : String) (c : Nat),
    (∀ e ∈ m, e.2.1.id = e.1) → ∀ e ∈ (reqPhase l m maxR c).1, e.2.1.id = e.1 := by
  induction l with
  | nil => intro m maxR c h; simpa [reqPhase] using h
  | cons e rest ih =>
    intro m maxR c h
    obtain ⟨pred, v⟩ := e
    simp only [reqPhase]
    exact ih _ _ _ (setRequest_idinv m (parseReq v) h)

theorem respPhase_keys_nodup (maxR : String) (l : List Entry) :
    ∀ (m : List (Nat × RequestState × List GrrMessage)) (c : Nat),
    (m.map Prod.fst).Nodup → (((respPhase maxR l m c).1).map Prod.fst).Nodup := by
  induction l with
  | nil => intro m c h; simpa [respPhase] using h
  | cons e rest ih =>
    intro m c h
    obtain ⟨pred, v⟩ := e
    simp only [respPhase]
    split_ifs
    · exact h
    · exact ih _ _ (addResponse_keys_nodup m (parseResp v) h)

theorem respPhase_idinv (maxR : String) (l : List Entry) :
    ∀ (m : List (Nat × RequestState × List GrrMessage)) (c : Nat),
    (∀ e ∈ m, e.2.1.id = e.1) → ∀ e ∈ (respPhase maxR l m c).1, e.2.1.id = e.1 := by
  induction l with
  | nil => intro m c h; simpa [respPhase] using h
  | cons e rest ih =>
    intro m c h
    obtain ⟨pred, v⟩ := e
    simp only [respPhase]
    split_ifs
    · exact h
    · exact ih _ _ (addResponse_idinv m (parseResp v) h)

theorem insPair_perm (x : Nat × RequestState × List GrrMessage)
    (l : List (Nat × RequestState × List GrrMessage)) :
    (insPair x l).Perm (x :: l) := by
  induction l with
  | nil => exact List.Perm.refl _
  | cons y ys ih =>
    unfold insPair
    split_ifs
    · exact (List.Perm.cons y ih).trans (List.Perm.swap x y ys)
    · exact List.Perm.refl _

theorem sortPairs_perm (l : List (Nat × RequestState × List GrrMessage)) :
    (sortPairs l).Perm l := by
  induction l with
  | nil => exact List.Perm.refl _
  | cons x xs ih =>
    exact (insPair_perm x (sortPairs xs)).trans (List.Perm.cons x ih)

theorem insPair_pairwise (x : Nat × RequestState × List GrrMessage)
    (l : List (Nat × RequestState × List GrrMessage))
    (h : l.Pairwise (fun a b => a.1 ≤ b.1)) :
    (insPair x l).Pairwise (fun a b => a.1 ≤ b.1) := by
  induction l with
  | nil => simp [insPair]
  | cons y ys ih =>
    rcases List.pairwise_cons.mp h with ⟨hy, hys⟩
    unfold insPair
    split_ifs with hc
    · refine List.pairwise_cons.mpr ⟨?_, ih hys⟩
      intro b hb
      have hb' := (insPair_perm x ys).mem_iff.mp hb
      rcases List.mem_cons.mp hb' with rfl | hbm
      · exact hc
      · exact hy b hbm
    · have hxy : x.1 ≤ y.1 := Nat.le_of_not_le hc
      refine List.pairwise_cons.mpr ⟨?_, h⟩
      intro b hb
      rcases List.mem_cons.mp hb with rfl | hbm
      · exact hxy
      · exact Nat.le_trans hxy (hy b hbm)

theorem sortPairs_pairwise (l : List (Nat × RequestState × List GrrMessage)) :
    (sortPairs l).Pairwise (fun a b => a.1 ≤ b.1) := by
  induction l with
  | nil => simp [sortPairs]
  | cons x xs ih => exact insPair_pairwise x (sortPairs xs) ih

theorem fetchRR_fst (reqScan respScan : List Entry) :
    (fetchRR reqScan respScan).1 =
      (sortPairs (respPhase
          (reqPhase (sortEntries reqScan) [(0, ({ id := 0 }, []))] "00000000" 0).2.1
          (sortEntries respScan)
          (reqPhase (sortEntries reqScan) [(0, ({ id := 0 }, []))] "00000000" 0).1
          0).1).map (fun e => (e.2.1, e.2.2)) := rfl

theorem fetchRR_snd (reqScan respScan : List Entry) :
    (fetchRR reqScan respScan).2 =
      (decide (request_limit ≤
          (reqPhase (sortEntries reqScan) [(0, ({ id := 0 }, []))] "00000000" 0).2.2) ||
       decide (response_limit ≤
          (respPhase
            (reqPhase (sortEntries reqScan) [(0, ({ id := 0 }, []))] "00000000" 0).2.1
            (sortEntries respScan)
            (reqPhase (sortEntries reqScan) [(0, ({ id := 0 }, []))] "00000000" 0).1
            0).2)) := rfl

/-- C6 (amended): `FetchRequestsAndResponses` yields the joined
`(RequestState, responses)` pairs in strictly ascending request-id order
and surfaces the MORE_DATA sentinel only after yielding everything (the
model returns the yielded pairs together with the flag).  The sentinel
is raised whenever the request scan returned at least `request_limit`
entries, and it is raised **only if** one of the two scans returned at
least its limit; the converse fails for the response scan because the
response loop stops counting at the first response keyed past the last
scanned request id. -/
theorem fetch_yield_order_and_more_data (reqScan respScan : List Entry) :
    ((fetchRR reqScan respScan).1.map (fun p => p.1.id)).Pairwise (· < ·) ∧
    (request_limit ≤ reqScan.length → (fetchRR reqScan respScan).2 = true) ∧
    ((fetchRR reqScan respScan).2 = true →
      request_limit ≤ reqScan.length ∨ response_limit ≤ respScan.length) := by
  have hrc : (reqPhase (sortEntries reqScan)
      [(0, ({ id := 0 }, []))] "00000000" 0).2.2 = reqScan.length := by
    rw [reqPhase_count]
    rw [sortEntries_length]
    omega
  have hpc : (respPhase
      (reqPhase (sortEntries reqScan) [(0, ({ id := 0 }, []))] "00000000" 0).2.1
      (sortEntries respScan)
      (reqPhase (sortEntries reqScan) [(0, ({ id := 0 }, []))] "00000000" 0).1
      0).2 ≤ respScan.length := by
    have := respPhase_count_le
      (reqPhase (sortEntries reqScan) [(0, ({ id := 0 }, []))] "00000000" 0).2.1
      (sortEntries respScan)
      (reqPhase (sortEntries reqScan) [(0, ({ id := 0 }, []))] "00000000" 0).1
      0
    rw [sortEntries_length] at this
    omega
  refine ⟨?_, ?_, ?_⟩
  · -- ascending request-id order
    have hn1 : ((reqPhase (sortEntries reqScan)
        [(0, ({ id := 0 }, []))] "00000000" 0).1.map Prod.fst).Nodup :=
      reqPhase_keys_nodup _ _ _ _ (by simp)
    have hn2 : ((respPhase
        (reqPhase (sortEntries reqScan) [(0, ({ id := 0 }, []))] "00000000" 0).2.1
        (sortEntries respScan)
        (reqPhase (sortEntries reqScan) [(0, ({ id := 0 }, []))] "00000000" 0).1
        0).1.map Prod.fst).Nodup :=
      respPhase_keys_nodup _ _ _ _ hn1
    have hid1 : ∀ e ∈ (reqPhase (sortEntries reqScan)
        [(0, ({ id := 0 }, []))] "00000000" 0).1, e.2.1.id = e.1 :=
      reqPhase_idinv _ _ _ _ (by simp)
    have hid2 : ∀ e ∈ (respPhase
        (reqPhase (sortEntries reqScan) [(0, ({ id := 0 }, []))] "00000000" 0).2.1
        (sortEntries respScan)
        (reqPhase (sortEntries reqScan) [(0, ({ id := 0 }, []))] "00000000" 0).1
        0).1, e.2.1.id = e.1 :=
      respPhase_idinv _ _ _ _ hid1
    set M := (respPhase
        (reqPhase (sortEntries reqScan) [(0, ({ id := 0 }, []))] "00000000" 0).2.1
        (sortEntries respScan)
        (reqPhase (sortEntries reqScan) [(0, ({ id := 0 }, []))] "00000000" 0).1
        0).1 with hM
    have hperm := sortPairs_perm M
    have hnodup : ((sortPairs M).map Prod.fst).Nodup :=
      ((hperm.map Prod.fst).nodup_iff).mpr hn2
    have hle := sortPairs_pairwise M
    have hne : (sortPairs M).Pairwise (fun a b => a.1 ≠ b.1) :=
      (List.pairwise_map.mp hnodup)
    have hlt : (sortPairs M).Pairwise (fun a b => a.1 < b.1) := by
      have hand := hle.and hne
      exact hand.imp (fun hab => Nat.lt_of_le_of_ne hab.1 hab.2)
    rw [fetchRR_fst]
    rw [List.map_map]
    have hmapeq : (sortPairs M).map ((fun p => p.1.id) ∘ (fun e => (e.2.1, e.2.2))) =
        (sortPairs M).map Prod.fst := by
      apply List.map_congr_left
      intro e he
      exact hid2 e (hperm.mem_iff.mp he)
    rw [hmapeq]
    exact List.pairwise_map.mpr hlt
  · intro hlen
    rw [fetchRR_snd]
    have : decide (request_limit ≤
        (reqPhase (sortEntries reqScan) [(0, ({ id := 0 }, []))] "00000000" 0).2.2) = true := by
      rw [hrc]
      exact decide_eq_true hlen
    rw [this]
    rfl
  · intro hmore
    rw [fetchRR_snd] at hmore
    rcases Bool.or_eq_true_iff.mp hmore with h | h
    · left
      rw [hrc] at h
      exact of_decide_eq_true h
    · right
      have := of_decide_eq_true h
      omega

theorem filter_replicate_of_pos {α : Type} {p : α → Bool} {a : α} (h : p a = true) :
    ∀ n : Nat, (List.replicate n a).filter p = List.replicate n a := by
  intro n
  induction n with
  | zero => rfl
  | succ k ih => simp [List.replicate_succ, List.filter_cons_of_pos h, ih]

theorem filter_replicate_of_neg {α : Type} {p : α → Bool} {a : α} (h : ¬ p a = true) :
    ∀ n : Nat, (List.replicate n a).filter p = [] := by
  intro n
  induction n with
  | zero => rfl
  | succ k ih => simp [List.replicate_succ, List.filter_cons_of_neg h, ih]

theorem insEntry_replicate_self (a : Entry) (h : entryLe a a = true) :
    ∀ n : Nat, insEntry a (List.replicate n a) = List.replicate (n + 1) a := by
  intro n
  induction n with
  | zero => rfl
  | succ k ih =>
    rw [List.replicate_succ, insEntry, h]
    simp only [if_true]
    rw [ih]
    rw [List.replicate_succ a (k + 1)]

theorem sortEntries_replicate (a : Entry) (h : entryLe a a = true) :
    ∀ n : Nat, sortEntries (List.replicate n a) = List.replicate n a := by
  intro n
  induction n with
  | zero => rfl
  | succ k ih =>
    rw [List.replicate_succ, sortEntries, ih, insEntry_replicate_self a h k]
    rw [List.replicate_succ]

theorem insEntry_cons_of_not_le (x y : Entry) (ys : List Entry)
    (h : entryLe y x = false) : insEntry x (y :: ys) = x :: y :: ys := by
  rw [insEntry, h]
  simp

theorem takeAllOfLe {α : Type} : ∀ (n : Nat) (l : List α), l.length ≤ n → l.take n = l := by
  intro n l
  induction l generalizing n with
  | nil => intro h; simp
  | cons a as ih =>
    intro h
    cases n with
    | zero => simp at h
    | succ k =>
      rw [List.take_succ_cons, ih k (by simpa using h)]

theorem ceStore_respScan :
    resolveRegex ceStore "flow:response:" response_limit =
      ceRespIn :: List.replicate 99999 ceRespOut := by
  unfold resolveRegex ceStore
  rw [List.filter_cons_of_neg (by decide), List.filter_cons_of_pos (by decide)]
  rw [filter_replicate_of_pos (by decide)]
  apply takeAllOfLe
  rw [List.length_cons, List.length_replicate]
  decide

theorem ceStore_reqScan :
    resolveRegex ceStore "flow:request:" request_limit = [ceReqCell] := by
  unfold resolveRegex ceStore
  rw [List.filter_cons_of_pos (by decide), List.filter_cons_of_neg (by decide)]
  rw [filter_replicate_of_neg (by decide)]
  rfl

theorem ceStore_sorted_resp :
    sortEntries (ceRespIn :: List.replicate 99999 ceRespOut) =
      ceRespIn :: List.replicate 99999 ceRespOut := by
  rw [sortEntries, sortEntries_replicate ceRespOut (by decide)]
  rw [show (99999 : Nat) = 99998 + 1 from by decide, List.replicate_succ]
  rw [insEntry_cons_of_not_le ceRespIn ceRespOut _ (by decide)]

theorem ceStore_respPhase_count (m : List (Nat × RequestState × List GrrMessage))
    (rest : List Entry) :
    (respPhase "00000002" (ceRespIn :: ceRespOut :: rest) m 0).2 = 2 := by
  rw [respPhase]
  rw [if_neg (by decide)]
  rw [respPhase]
  rw [if_pos (by decide)]

/-- Counterexample to C6: the response scan of this store returns
exactly `response_limit` (100,000) cells, yet `FetchRequestsAndResponses`
does **not** raise MORE_DATA — the response loop breaks at the second
cell (keyed past the last scanned request id) and its count stays below
the limit. -/
theorem fetch_more_data_not_raised_at_limit :
    response_limit ≤ (resolveRegex ceStore "flow:response:" response_limit).length ∧
    (fetchFromStore ceStore).2 = false := by
  constructor
  · rw [ceStore_respScan]
    rw [List.length_cons, List.length_replicate]
    decide
  · unfold fetchFromStore
    rw [ceStore_reqScan, ceStore_respScan]
    rw [fetchRR_snd]
    rw [ceStore_sorted_resp]
    rw [show (99999 : Nat) = 99998 + 1 from by decide, List.replicate_succ]
    have hmax : (reqPhase (sortEntries [ceReqCell])
        [(0, ({ id := 0 }, []))] "00000000" 0).2.1 = "00000002" := by decide
    have hcnt : (reqPhase (sortEntries [ceReqCell])
        [(0, ({ id := 0 }, []))] "00000000" 0).2.2 = 1 := by decide
    rw [hmax, hcnt]
    rw [ceStore_respPhase_count]
    decide

/-- Witness for `fetch_yield_order_and_more_data`: a request scan that
returns `request_limit` cells makes the fetch surface MORE_DATA. -/
theorem fetch_yield_order_and_more_data_witness :
    request_limit ≤ (List.replicate 10000 ceReqCell).length ∧
    (fetchRR (List.replicate 10000 ceReqCell) []).2 = true := by
  have hlen : request_limit ≤ (List.replicate 10000 ceReqCell).length := by
    rw [List.length_replicate]
    decide
  exact ⟨hlen,
    (fetch_yield_order_and_more_data (List.replicate 10000 ceReqCell) []).2.1 hlen⟩

theorem groupBy_mem_key {α κ : Type} [DecidableEq κ] (key : α → κ) :
    ∀ l : List α, ∀ g ∈ groupBy key l, ∀ x ∈ g.2, key x = g.1 := by
  intro l
  generalize hl : l.length = n
  induction n using Nat.strong_induction_on generalizing l with
  | _ n ih =>
    cases l with
    | nil => intro g hg; simp [groupBy] at hg
    | cons x xs =>
      intro g hg y hy
      rw [groupBy] at hg
      rcases List.mem_cons.mp hg with rfl | hg
      · rcases List.mem_cons.mp hy with rfl | hy
        · rfl
        · have := List.of_mem_filter hy
          exact eq_of_beq this
      · subst hl
        exact ih (xs.filter (fun y => !(key y == key x))).length
          (Nat.lt_succ_of_le (List.length_filter_le _ _)) _ rfl g hg y hy

theorem groupBy_flatten_perm {α κ : Type} [DecidableEq κ] (key : α → κ) :
    ∀ l : List α, ((groupBy key l).flatMap Prod.snd).Perm l := by
  intro l
  generalize hl : l.length = n
  induction n using Nat.strong_induction_on generalizing l with
  | _ n ih =>
    cases l with
    | nil => simp [groupBy]
    | cons x xs =>
      rw [groupBy]
      subst hl
      have hrec := ih (xs.filter (fun y => !(key y == key x))).length
        (Nat.lt_succ_of_le (List.length_filter_le _ _)) _ rfl
      simp only [List.flatMap_cons]
      exact List.Perm.trans
        (List.Perm.cons x (List.Perm.append_left _ hrec))
        (List.Perm.cons x (List.filter_append_perm (fun y => key y == key x) xs))

theorem enumFromN_length {α : Type} : ∀ (n : Nat) (l : List α),
    (enumFromN n l).length = l.length := by
  intro n l
  induction l generalizing n with
  | nil => rfl
  | cons a as ih => simp [enumFromN, ih]

theorem enumFromN_get? {α : Type} : ∀ (l : List α) (n k : Nat),
    (enumFromN n l).get? k = (l.get? k).map (fun a => (n + k, a)) := by
  intro l
  induction l with
  | nil => intro n k; simp [enumFromN]
  | cons a as ih =>
    intro n k
    cases k with
    | zero => simp [enumFromN]
    | succ j =>
      simp only [enumFromN, List.get?_cons_succ, ih (n + 1) j]
      have : n + 1 + j = n + (j + 1) := by omega
      rw [this]

theorem enumFromN_mem_snd {α : Type} : ∀ (l : List α) (n : Nat)
    (p : Nat × α), p ∈ enumFromN n l → p.2 ∈ l := by
  intro l
  induction l with
  | nil => intro n p h; simp [enumFromN] at h
  | cons a as ih =>
    intro n p h
    rcases List.mem_cons.mp h with rfl | h
    · simp
    · exact List.mem_cons_of_mem _ (ih (n + 1) p h)

theorem enumFromN_mem_get? {α : Type} : ∀ (l : List α) (n : Nat)
    (p : Nat × α), p ∈ enumFromN n l → n ≤ p.1 ∧ l.get? (p.1 - n) = some p.2 := by
  intro l
  induction l with
  | nil => intro n p h; simp [enumFromN] at h
  | cons a as ih =>
    intro n p h
    rcases List.mem_cons.mp h with rfl | h
    · simp
    · rcases ih (n + 1) p h with ⟨h1, h2⟩
      refine ⟨by omega, ?_⟩
      have : p.1 - n = (p.1 - (n + 1)) + 1 := by omega
      rw [this, List.get?_cons_succ]
      exact h2

theorem enumFromN_mem_of_get? {α : Type} : ∀ (l : List α) (n k : Nat) (a : α),
    l.get? k = some a → (n + k, a) ∈ enumFromN n l := by
  intro l
  induction l with
  | nil => intro n k a h; simp at h
  | cons x xs ih =>
    intro n k a h
    cases k with
    | zero =>
      simp only [List.get?_cons_zero, Option.some.injEq] at h
      subst h
      simp [enumFromN]
    | succ j =>
      simp only [List.get?_cons_succ] at h
      have := ih (n + 1) j a h
      have heq : n + (j + 1) = n + 1 + j := by omega
      rw [heq]
      exact List.mem_cons_of_mem _ this

theorem enumFromN_filter_map {α β : Type} (q : α → Bool) (f : α → β) :
    ∀ (l : List α) (n : Nat),
    ((enumFromN n l).filter (fun p => q p.2)).map (fun p => f p.2) =
      (l.filter q).map f := by
  intro l
  induction l with
  | nil => intro n; rfl
  | cons a as ih =>
    intro n
    by_cases hq : q a = true
    · simp only [enumFromN, List.filter_cons]
      rw [if_pos hq, if_pos hq]
      simp only [List.map_cons]
      rw [ih (n + 1)]
    · simp only [enumFromN, List.filter_cons]
      rw [if_neg hq, if_neg hq]
      exact ih (n + 1)

theorem enumFromN_map_snd {α β : Type} (f : α → β) :
    ∀ (l : List α) (n : Nat), (enumFromN n l).map (fun p => f p.2) = l.map f := by
  intro l
  induction l with
  | nil => intro n; rfl
  | cons a as ih =>
    intro n
    simp only [enumFromN, List.map_cons, ih (n + 1)]

theorem schedulePhase_sync :
    ∀ (gs : List (String × List (Nat × RequestState))) (nid : Nat)
    (ts : List SchedTask) (sy : Bool),
    Effect.scheduleTasks ts sy ∈ (schedulePhase gs nid).effects → sy = true := by
  intro gs
  induction gs with
  | nil => intro nid ts sy h; simp [schedulePhase] at h
  | cons g rest ih =>
    intro nid ts sy h
    obtain ⟨destination, grp⟩ := g
    simp only [schedulePhase] at h
    rcases List.mem_cons.mp h with he | h
    · rw [Effect.scheduleTasks.injEq] at he
      exact he.2
    · rcases List.mem_cons.mp h with he | h
      · exact absurd he (by simp)
      · exact ih _ ts sy h

theorem schedulePhase_tasks_shape :
    ∀ (gs : List (String × List (Nat × RequestState))) (nid : Nat),
    (schedulePhase gs nid).tasks.map (fun t => (t.queue, t.value)) =
      gs.flatMap (fun g =>
        (g.2.filter (fun p => p.2.request.name != "")).map
          (fun p => (g.1, p.2.request))) := by
  intro gs
  induction gs with
  | nil => intro nid; rfl
  | cons g rest ih =>
    intro nid
    obtain ⟨destination, grp⟩ := g
    simp only [schedulePhase, List.flatMap_cons, List.map_append, ih]
    congr 1
    rw [List.map_map]
    exact enumFromN_map_snd (fun p => ((destination, p.2.request) : String × GrrMessage))
      (grp.filter (fun p => p.2.request.name != "")) 0

theorem schedulePhase_asg_sound :
    ∀ (gs : List (String × List (Nat × RequestState))) (nid : Nat)
    (jt : Nat × Nat), jt ∈ (schedulePhase gs nid).assignments →
    ∃ g ∈ gs, ∃ p ∈ g.2, (p.2.request.name != "") = true ∧ p.1 = jt.1 ∧
      ∃ t ∈ (schedulePhase gs nid).tasks, t.id = jt.2 ∧ t.queue = g.1 ∧
        t.value = p.2.request := by
  intro gs
  induction gs with
  | nil => intro nid jt h; simp [schedulePhase] at h
  | cons g rest ih =>
    intro nid jt h
    obtain ⟨destination, grp⟩ := g
    simp only [schedulePhase] at h ⊢
    rcases List.mem_append.mp h with h | h
    · rcases List.mem_map.mp h with ⟨q, hq, hfq⟩
      have hq2 : q.2 ∈ grp.filter (fun p => p.2.request.name != "") :=
        enumFromN_mem_snd _ 0 q hq
      have hnamed : (q.2.2.request.name != "") = true := by
        have := (List.mem_filter.mp hq2).2
        simpa using this
      have hfst : q.2.1 = jt.1 := by rw [← hfq]
      have hid : nid + q.1 = jt.2 := by rw [← hfq]
      refine ⟨(destination, grp), List.mem_cons_self _ _, q.2,
        List.mem_of_mem_filter hq2, hnamed, hfst,
        { queue := destination, id := nid + q.1, value := q.2.2.request },
        List.mem_append_left _ (List.mem_map_of_mem _ hq), hid, rfl, rfl⟩
    · rcases ih _ jt h with ⟨g, hg, p, hp, hnamed, hfst, t, ht, hid, hqueue, hval⟩
      exact ⟨g, List.mem_cons_of_mem _ hg, p, hp, hnamed, hfst, t,
        List.mem_append_right _ ht, hid, hqueue, hval⟩

theorem schedulePhase_asg_complete :
    ∀ (gs : List (String × List (Nat × RequestState))) (nid : Nat)
    (g : String × List (Nat × RequestState)) (p : Nat × RequestState),
    g ∈ gs → p ∈ g.2 → (p.2.request.name != "") = true →
    ∃ tid, (p.1, tid) ∈ (schedulePhase gs nid).assignments := by
  intro gs
  induction gs with
  | nil => intro nid g p hg; simp at hg
  | cons g0 rest ih =>
    intro nid g p hg hp hnamed
    obtain ⟨destination, grp⟩ := g0
    simp only [schedulePhase]
    rcases List.mem_cons.mp hg with rfl | hg
    · have hp2 : p ∈ grp.filter (fun p => p.2.request.name != "") :=
        List.mem_filter.mpr ⟨hp, hnamed⟩
      rcases List.mem_iff_get?.mp hp2 with ⟨k, hk⟩
      have hmem := enumFromN_mem_of_get? _ 0 k p hk
      simp only [Nat.zero_add] at hmem
      refine ⟨nid + k, List.mem_append_left _ ?_⟩
      have hmap := List.mem_map_of_mem (fun q => (q.2.1, nid + q.1)) hmem
      simpa using hmap
    · rcases ih _ g p hg hp hnamed with ⟨tid, htid⟩
      exact ⟨tid, List.mem_append_right _ htid⟩

theorem flatMap_congr_mem {α β : Type} (l : List α) (f g : α → List β)
    (h : ∀ a ∈ l, f a = g a) : l.flatMap f = l.flatMap g := by
  induction l with
  | nil => rfl
  | cons x xs ih =>
    simp only [List.flatMap_cons]
    rw [h x (List.mem_cons_self _ _), ih (fun a ha => h a (List.mem_cons_of_mem _ ha))]

/-- C5: `FlushMessages` schedules as client-queue tasks exactly the
subset of the swapped-out pending RequestStates whose embedded
`request.name` is non-empty (one batch per client group, always with
`sync=true`), copies each returned task id into the corresponding
`RequestState.ts_id` (positionally: unnamed entries are flushed
unchanged, each named entry gets the id of a task carrying its request
on its client's queue), queues every flushed RequestState (named or not)
into its session's FlowStore grouped by `session_id`, and leaves the
pending buffer empty. -/
theorem flushMessages_spec (pending : List RequestState) (nid : Nat) :
    (flushMessages pending nid).newPending = [] ∧
    (∀ ts sy, Effect.scheduleTasks ts sy ∈ (flushMessages pending nid).effects →
      sy = true) ∧
    ((flushMessages pending nid).tasks.map (fun t => (t.queue, t.value))).Perm
      ((pending.filter (fun r => r.request.name != "")).map
        (fun r => (r.client_id, r.request))) ∧
    (flushMessages pending nid).flushed.length = pending.length ∧
    (∀ j r, pending.get? j = some r → (r.request.name != "") = false →
      (flushMessages pending nid).flushed.get? j = some r) ∧
    (∀ j r, pending.get? j = some r → (r.request.name != "") = true →
      ∃ t ∈ (flushMessages pending nid).tasks, t.queue = r.client_id ∧
        t.value = r.request ∧
        (flushMessages pending nid).flushed.get? j = some { r with ts_id := t.id }) ∧
    ((flushMessages pending nid).writes).Perm
      ((flushMessages pending nid).flushed.map
        (fun r => (r.session_id, "flow:request:" ++ hex8 r.id, r))) := by
  have hpend : (flushMessages pending nid).newPending = [] := rfl
  have heffs : (flushMessages pending nid).effects =
      (schedulePhase (groupBy (fun p => p.2.client_id) (enumFromN 0 pending)) nid).effects :=
    rfl
  have htasks : (flushMessages pending nid).tasks =
      (schedulePhase (groupBy (fun p => p.2.client_id) (enumFromN 0 pending)) nid).tasks :=
    rfl
  have hflushed : (flushMessages pending nid).flushed =
      (enumFromN 0 pending).map (fun p =>
        match (schedulePhase (groupBy (fun p => p.2.client_id)
            (enumFromN 0 pending)) nid).assignments.lookup p.1 with
        | some t => { p.2 with ts_id := t }
        | none => p.2) := rfl
  have hwrites : (flushMessages pending nid).writes =
      (groupBy (fun r => r.session_id) ((flushMessages pending nid).flushed)).flatMap
        (fun g => g.2.map (fun r => (g.1, "flow:request:" ++ hex8 r.id, r))) := rfl
  refine ⟨hpend, ?_, ?_, ?_, ?_, ?_, ?_⟩
  · intro ts sy h
    rw [heffs] at h
    exact schedulePhase_sync _ nid ts sy h
  · rw [htasks, schedulePhase_tasks_shape]
    have hcongr : (groupBy (fun p => p.2.client_id) (enumFromN 0 pending)).flatMap
        (fun g => (g.2.filter (fun p => p.2.request.name != "")).map
          (fun p => (g.1, p.2.request))) =
        (groupBy (fun p => p.2.client_id) (enumFromN 0 pending)).flatMap
        (fun g => (g.2.filter (fun p => p.2.request.name != "")).map
          (fun p => (p.2.client_id, p.2.request))) := by
      apply flatMap_congr_mem
      intro g hg
      apply List.map_congr_left
      intro p hp
      rw [groupBy_mem_key (fun p => p.2.client_id) (enumFromN 0 pending) g hg p
        (List.mem_of_mem_filter hp)]
    rw [hcongr]
    have hshape : (groupBy (fun p => p.2.client_id) (enumFromN 0 pending)).flatMap
        (fun g => (g.2.filter (fun p => p.2.request.name != "")).map
          (fun p => (p.2.client_id, p.2.request))) =
        (((groupBy (fun p => p.2.client_id) (enumFromN 0 pending)).flatMap
            Prod.snd).filter (fun p => p.2.request.name != "")).map
          (fun p => (p.2.client_id, p.2.request)) := by
      rw [List.filter_flatMap, List.map_flatMap]
    rw [hshape]
    have hperm := (((groupBy_flatten_perm (fun p => p.2.client_id)
        (enumFromN 0 pending)).filter (fun p => p.2.request.name != "")).map
        (fun p => (p.2.client_id, p.2.request)))
    rw [enumFromN_filter_map (fun r => r.request.name != "")
      (fun r => (r.client_id, r.request)) pending 0] at hperm
    exact hperm
  · rw [hflushed, List.length_map, enumFromN_length]
  · intro j r hj hun
    rw [hflushed, List.get?_map, enumFromN_get? pending 0 j, hj]
    have hnone : ((schedulePhase (groupBy (fun p => p.2.client_id)
        (enumFromN 0 pending)) nid).assignments).lookup j = none := by
      rw [List.lookup_eq_none_iff]
      intro p hp
      rcases schedulePhase_asg_sound _ nid p hp with
        ⟨g, hg, q, hq, hnamedq, hfst, -⟩
      rw [bne_iff_ne]
      intro hjp
      have hqmem : q ∈ enumFromN 0 pending :=
        (groupBy_flatten_perm (fun p => p.2.client_id)
          (enumFromN 0 pending)).mem_iff.mp
          (List.mem_flatMap.mpr ⟨g, hg, hq⟩)
      have hget := (enumFromN_mem_get? pending 0 q hqmem).2
      rw [Nat.sub_zero, hfst, ← hjp, hj] at hget
      injection hget with hqr
      rw [← hqr] at hnamedq
      have hcontra := hnamedq.symm.trans hun
      exact Bool.noConfusion hcontra
    simp only [Option.map_some', Nat.zero_add]
    simp [hnone]
  · intro j r hj hn
    have hjr : (j, r) ∈ enumFromN 0 pending := by
      have := enumFromN_mem_of_get? pending 0 j r hj
      simpa using this
    have hgrp := List.mem_flatMap.mp
      (((groupBy_flatten_perm (fun p => p.2.client_id)
        (enumFromN 0 pending)).mem_iff).mpr hjr)
    rcases hgrp with ⟨g, hg, hmem⟩
    rcases schedulePhase_asg_complete _ nid g (j, r) hg hmem (by simpa using hn) with
      ⟨tid0, htid0⟩
    have hsome : ((schedulePhase (groupBy (fun p => p.2.client_id)
        (enumFromN 0 pending)) nid).assignments.lookup j).isSome :=
      List.lookup_isSome_iff.mpr ⟨(j, tid0), htid0, by simp⟩
    rcases Option.isSome_iff_exists.mp hsome with ⟨tid, hlook⟩
    have hmemlk : (j, tid) ∈ (schedulePhase (groupBy (fun p => p.2.client_id)
        (enumFromN 0 pending)) nid).assignments := by
      rcases List.lookup_eq_some_iff.mp hlook with ⟨l₁, l₂, heq, -⟩
      rw [heq]
      simp
    rcases schedulePhase_asg_sound _ nid (j, tid) hmemlk with
      ⟨g', hg', q, hq, hnamedq, hfst, t, ht, hid, hqueue, hval⟩
    have hqmem : q ∈ enumFromN 0 pending :=
      (groupBy_flatten_perm (fun p => p.2.client_id)
        (enumFromN 0 pending)).mem_iff.mp
        (List.mem_flatMap.mpr ⟨g', hg', hq⟩)
    have hget := (enumFromN_mem_get? pending 0 q hqmem).2
    rw [Nat.sub_zero, hfst, hj] at hget
    injection hget with hqr
    have hkey := groupBy_mem_key (fun p => p.2.client_id)
      (enumFromN 0 pending) g' hg' q hq
    refine ⟨t, by rw [htasks]; exact ht, ?_, ?_, ?_⟩
    · rw [hqueue, ← hkey, hqr]
    · rw [hval, hqr]
    · rw [hflushed, List.get?_map, enumFromN_get? pending 0 j, hj]
      simp only [Option.map_some', Nat.zero_add]
      simp [hlook, hid]
  · rw [hwrites]
    have hcongr : (groupBy (fun r => r.session_id)
        ((flushMessages pending nid).flushed)).flatMap
        (fun g => g.2.map (fun r => (g.1, "flow:request:" ++ hex8 r.id, r))) =
        (groupBy (fun r => r.session_id)
          ((flushMessages pending nid).flushed)).flatMap
        (fun g => g.2.map (fun r => (r.session_id, "flow:request:" ++ hex8 r.id, r))) := by
      apply flatMap_congr_mem
      intro g hg
      apply List.map_congr_left
      intro p hp
      rw [groupBy_mem_key (fun r => r.session_id) _ g hg p hp]
    rw [hcongr]
    rw [← List.map_flatMap]
    exact (groupBy_flatten_perm (fun r => r.session_id)
      ((flushMessages pending nid).flushed)).map _

/-- Witness for `flushMessages_spec` on a two-request buffer: the named
request is scheduled on its client queue and its task id is copied into
`ts_id`; the unnamed request is flushed unchanged. -/
theorem flushMessages_spec_witness :
    (∃ t ∈ (flushMessages [wReq1, wReq2] 5).tasks, t.queue = "C1" ∧
      t.value = wReq1.request ∧
      (flushMessages [wReq1, wReq2] 5).flushed.get? 0 =
        some { wReq1 with ts_id := t.id }) ∧
    (flushMessages [wReq1, wReq2] 5).flushed.get? 1 = some wReq2 := by
  refine ⟨?_, ?_⟩
  · rcases (flushMessages_spec [wReq1, wReq2] 5).2.2.2.2.2.1 0 wReq1 rfl
      (by decide) with ⟨t, ht, hq, hv, hf⟩
    exact ⟨t, ht, by rw [hq]; rfl, hv, hf⟩
  · exact (flushMessages_spec [wReq1, wReq2] 5).2.2.2.2.1 1 wReq2 rfl (by decide)
